import Mathlib

/-!
Verification of the AntiLLM detection-and-scoring engine.

Shallow embedding of the scoring core of the AntiLLM browser extension:
the Levenshtein distance utilities, the typosquat analyzer, the jailbreak
risk aggregation and detection history, the AI-text composite scorer, the
domain risk scorer, and the composite aggregator with signal gating and
risk-level derivation.  Strings are modelled as `List Char`, JavaScript
numbers as `ℚ` (exact arithmetic), nullable values as `Option`, and a
thrown `TypeError` as `Except.error`.
-/

namespace AntiLLM

/-! ## Levenshtein distance (content script `utils.js` and `serviceWorker.js`)

Both source files contain the same dynamic-programming matrix algorithm:
`matrix[i][0] = i`, `matrix[0][j] = j`, and
`matrix[i][j] = min(matrix[i-1][j] + 1, matrix[i][j-1] + 1, matrix[i-1][j-1] + cost)`
with `cost = a[i-1] === b[j-1] ? 0 : 1`, returning `matrix[a.length][b.length]`.
Each cell depends only on the previous row and the cell to its left, so the
embedding computes the matrix row by row; `levRowGo` produces the cells
`matrix[i][1..b.length]` of row `i` from row `i-1` (`prevs`) and the already
computed cell `matrix[i][j-1]` (`left`). -/

/-- One row of the `utils.js` `levenshteinDistance` matrix: given the previous
row `prevs` (starting at the diagonal neighbour) and the cell to the left,
emit the remaining cells of the current row, one per character of `bs`. -/
def levRowGo (ai : Char) : ℕ → List ℕ → List Char → List ℕ
  | _, _, [] => []
  | _, [], _ :: _ => []
  | _, [_], _ :: _ => []
  | left, pd :: pj :: rest, c :: cs =>
      let v := min (pj + 1) (min (left + 1) (pd + (if ai = c then 0 else 1)))
      v :: levRowGo ai v (pj :: rest) cs

/-- Rows `i`, `i+1`, … of the `utils.js` matrix, returning the final row.
`prev` is row `i - 1`; the head of each new row is its seed `matrix[i][0] = i`. -/
def levFinalRow (b : List Char) : List Char → ℕ → List ℕ → List ℕ
  | [], _, prev => prev
  | ai :: as, i, prev => levFinalRow b as (i + 1) (i :: levRowGo ai i prev b)

/-- Embedding of `VigilUtils.levenshteinDistance` from `src/content/detectors/utils.js`:
the bottom-right entry `matrix[a.length][b.length]` of the edit-distance
matrix, whose row 0 is `[0, 1, …, b.length]`. -/
def levenshteinDistance (a b : List Char) : ℕ :=
  (levFinalRow b a 1 (List.range (b.length + 1))).getD b.length 0

/-- Row worker of the `serviceWorker.js` `levenshtein` function (the source
is character for character the same algorithm as in `utils.js`). -/
def swLevRowGo (ai : Char) : ℕ → List ℕ → List Char → List ℕ
  | _, _, [] => []
  | _, [], _ :: _ => []
  | _, [_], _ :: _ => []
  | left, pd :: pj :: rest, c :: cs =>
      let v := min (pj + 1) (min (left + 1) (pd + (if ai = c then 0 else 1)))
      v :: swLevRowGo ai v (pj :: rest) cs

/-- Row iteration of the `serviceWorker.js` `levenshtein` function. -/
def swLevFinalRow (b : List Char) : List Char → ℕ → List ℕ → List ℕ
  | [], _, prev => prev
  | ai :: as, i, prev => swLevFinalRow b as (i + 1) (i :: swLevRowGo ai i prev b)

/-- Embedding of `levenshtein` from `src/background/serviceWorker.js`. -/
def levenshtein (a b : List Char) : ℕ :=
  (swLevFinalRow b a 1 (List.range (b.length + 1))).getD b.length 0

/-- Reference definition: the standard unit-cost edit distance (insertion,
deletion and substitution each cost 1), as the textbook recursion on the
first characters of the two words. -/
def editDistance : List Char → List Char → ℕ
  | [], ys => ys.length
  | x :: xs, [] => (x :: xs).length
  | x :: xs, y :: ys =>
      min (editDistance xs (y :: ys) + 1)
        (min (editDistance (x :: xs) ys + 1)
          (editDistance xs ys + (if x = y then 0 else 1)))
  termination_by xs ys => (xs.length, ys.length)

/-- The cell recurrence of the source matrix: `levCell a b i j` is
`matrix[i][j]` of the dynamic program for `levenshteinDistance a b`. -/
def levCell (a b : List Char) : ℕ → ℕ → ℕ
  | 0, j => j
  | i + 1, 0 => i + 1
  | i + 1, j + 1 =>
      min (levCell a b i (j + 1) + 1)
        (min (levCell a b (i + 1) j + 1)
          (levCell a b i j + (if a.getD i 'a' = b.getD j 'a' then 0 else 1)))
  termination_by i j => (i, j)

/-- The list `rowList f j0 n = [f j0, f (j0+1), …, f (j0+n-1)]`, used to describe the
rows of the edit-distance matrix. -/
def rowList (f : ℕ → ℕ) : ℕ → ℕ → List ℕ
  | _, 0 => []
  | j0, n + 1 => f j0 :: rowList f (j0 + 1) n

/-! ## Rounding helpers

JavaScript `Math.round` and `Number(x.toFixed(k))` for the non-negative
values arising in this code base: round half up at the respective decimal
position. -/

/-- JavaScript `Math.round` on the non-negative values used by the scanner. -/
def jsRound (q : ℚ) : ℤ := ⌊q + 1 / 2⌋

/-- JavaScript `Number(x.toFixed(2))` on the non-negative values used here. -/
def round2 (q : ℚ) : ℚ := ((⌊q * 100 + 1 / 2⌋ : ℤ) : ℚ) / 100

/-- JavaScript `Number(x.toFixed(3))` on the non-negative values used here. -/
def round3 (q : ℚ) : ℚ := ((⌊q * 1000 + 1 / 2⌋ : ℤ) : ℚ) / 1000

/-! ## Jailbreak scanner (`JailbreakDetector`, `src/unnamed/part_002`)

`analyzeNode` produces, per scanned fragment, a hit count and a table of
matched pattern categories `(name, weight)`; a heuristics pseudo-entry is
keyed `"heuristics"`.  `scanPage` aggregates fragments into `totalHits`
(a number: heuristic suspicion scores add fractional amounts), the number
of critical fragments, and the detection list. -/

structure JailbreakDetection where
  patterns : List (String × ℚ)
  deriving DecidableEq

structure JailbreakAggregate where
  totalHits : ℚ
  criticalHits : ℕ
  detections : List JailbreakDetection
  deriving DecidableEq

/-- Embedding of `JailbreakDetector.calculateRiskScore`: base `min(totalHits*15, 50)`,
plus `criticalHits*30`, plus `weight*20` for every matched non-heuristic
category of every detection, rounded and capped at 100. -/
def calculateRiskScore (r : JailbreakAggregate) : ℤ :=
  let base : ℚ := min (r.totalHits * 15) 50
  let withCritical : ℚ := base + (r.criticalHits : ℚ) * 30
  let score : ℚ :=
    r.detections.foldl
      (fun s d =>
        d.patterns.foldl (fun s p => if p.1 = "heuristics" then s else s + p.2 * 20) s)
      withCritical
  min (jsRound score) 100

/-- Sum of the non-heuristic category weights over all detections. -/
def patternWeightSum (r : JailbreakAggregate) : ℚ :=
  (r.detections.map fun d =>
    ((d.patterns.filter fun p => !(p.1 == "heuristics")).map Prod.snd).sum).sum

/-- Modelled from the claim: `riskScore = min(round(totalHits*15 +
criticalHits*30 + Σ(categoryWeight*20)), 100)`, i.e. the documented formula
without any cap on the base term. -/
def claimJailbreakRiskScore (r : JailbreakAggregate) : ℤ :=
  min (jsRound (r.totalHits * 15 + (r.criticalHits : ℚ) * 30 + 20 * patternWeightSum r)) 100

/-- One entry of the per-hostname detection history (`{timestamp, ...results}`;
only the risk score is consulted afterwards). -/
structure DetectionRecord where
  timestamp : ℕ
  riskScore : ℤ
  deriving DecidableEq

/-- Embedding of `JailbreakDetector.updateDetectionHistory` on the history list of one
hostname: push the new entry, then shift the oldest entry out if the length
exceeds 10. -/
def updateDetectionHistory (h : List DetectionRecord) (e : DetectionRecord) :
    List DetectionRecord :=
  let pushed := h ++ [e]
  if 10 < pushed.length then pushed.drop 1 else pushed

/-- Embedding of `JailbreakDetector.detectEscalatingThreat`: false below 3 entries,
otherwise the last three risk scores (`slice(-3)`) must be strictly
increasing. -/
def detectEscalatingThreat (h : List DetectionRecord) : Bool :=
  if h.length < 3 then false
  else
    let recent := (h.drop (h.length - 3)).map DetectionRecord.riskScore
    decide (recent.getD 0 0 < recent.getD 1 0) && decide (recent.getD 1 0 < recent.getD 2 0)

/-! ## AI text analyzer (`AITextAnalyzer`, `src/unnamed/part_002`) -/

structure ManipulationTechnique where
  severity : String
  deriving DecidableEq

/-- The result record of `AITextAnalyzer.analyzeText` (the `breakdown` and
`textStats` sub-objects, which no claim consults, are omitted). -/
structure AIAnalysisResult where
  aiProbability : ℚ
  confidence : ℚ
  persuasionFlags : List String
  persuasionScore : ℚ
  urgencyScore : ℚ
  urgencyIndicators : List String
  manipulationTechniques : List ManipulationTechnique
  credibilityScore : ℚ
  credibilityFactors : List String
  recommendation : String
  deriving DecidableEq

/-- Embedding of `AITextAnalyzer.createEmptyResult`. -/
def createEmptyResult : AIAnalysisResult where
  aiProbability := 0
  confidence := 0
  persuasionFlags := []
  persuasionScore := 0
  urgencyScore := 0
  urgencyIndicators := []
  manipulationTechniques := []
  credibilityScore := 1
  credibilityFactors := []
  recommendation := "low"

/-- Embedding of `AITextAnalyzer.analyzeText`, parametric in the scoring long branch:
the text is lowercased and rejected below 100 characters, in which case the
canonical empty result is returned and no scoring runs.  `longBranch`
stands for the linguistic/statistical/semantic/structural scoring performed
on accepted inputs; every theorem below holds for an arbitrary such branch. -/
def analyzeTextWith (longBranch : List Char → AIAnalysisResult) (content : List Char) :
    AIAnalysisResult :=
  let text := content.map Char.toLower
  if text.length < 100 then createEmptyResult else longBranch content

/-- The constructor state of the analyzer: the pattern/threshold configuration,
abstracted as the scoring function it determines.  `analyzeText` only reads
this state and never writes it. -/
structure AITextAnalyzerState where
  longBranch : List Char → AIAnalysisResult

/-- The method `analyzeText` in state-passing form: returns the result and the
(unchanged) analyzer state. -/
def analyzeTextStateful (st : AITextAnalyzerState) (content : List Char) :
    AIAnalysisResult × AITextAnalyzerState :=
  (analyzeTextWith st.longBranch content, st)

/-- Components handed to `AITextAnalyzer.calculateCompositeAIScore`
(the `score` field of each of the four sub-analyses). -/
structure AIScoreComponents where
  linguistic : ℚ
  statistical : ℚ
  semantic : ℚ
  structural : ℚ
  deriving DecidableEq

/-- Embedding of `AITextAnalyzer.calculateVariance`. -/
def calculateVariance (xs : List ℚ) : ℚ :=
  if xs.length = 0 then 0
  else
    let mean := xs.sum / (xs.length : ℚ)
    (xs.map fun x => (x - mean) ^ 2).sum / (xs.length : ℚ)

structure AICompositeScore where
  probability : ℚ
  confidence : ℚ
  deriving DecidableEq

/-- Embedding of `AITextAnalyzer.calculateCompositeAIScore`: weighted sum of the four
component scores (weights 0.35/0.30/0.20/0.15) capped at 1, and a
confidence `max(0, 1 - variance(scores))` rounded to 3 decimals. -/
def calculateCompositeAIScore (c : AIScoreComponents) : AICompositeScore where
  probability :=
    min (c.linguistic * 0.35 + c.statistical * 0.30 + c.semantic * 0.20 + c.structural * 0.15) 1
  confidence :=
    round3 (max 0 (1 - calculateVariance [c.linguistic, c.statistical, c.semantic, c.structural]))

/-! ## LLM fingerprinter (`src/content/detectors/llmFingerprinter.js`) -/

structure LLMRiskFactor where
  severity : String
  deriving DecidableEq

structure LikelyModel where
  modelType : String
  confidence : ℚ
  deriving DecidableEq

/-- The result record of `LLMFingerprinter.detectAIPhishing` (the `matches`,
`modelSignatures` and `heuristics` sub-objects, which no claim consults,
are omitted). -/
structure LLMFingerprintResult where
  score : ℚ
  totalHits : ℕ
  likelyModel : Option LikelyModel
  contextMultiplier : ℚ
  riskFactors : List LLMRiskFactor
  deriving DecidableEq

/-- Embedding of `LLMFingerprinter.createEmptyResult`. -/
def llmCreateEmptyResult : LLMFingerprintResult where
  score := 0
  totalHits := 0
  likelyModel := none
  contextMultiplier := 1
  riskFactors := []

/-- Embedding of `LLMFingerprinter.detectAIPhishing`, parametric in the scoring long
branch: inputs below 30 characters yield the empty result. -/
def detectAIPhishingWith (longBranch : List Char → LLMFingerprintResult)
    (content : List Char) : LLMFingerprintResult :=
  if content.length < 30 then llmCreateEmptyResult else longBranch content

/-- The constructor state of the fingerprinter (pattern tables and context
multipliers), abstracted as the scoring function it determines. -/
structure LLMFingerprinterState where
  longBranch : List Char → LLMFingerprintResult

/-- The method `detectAIPhishing` in state-passing form. -/
def detectAIPhishingStateful (st : LLMFingerprinterState) (content : List Char) :
    LLMFingerprintResult × LLMFingerprinterState :=
  (detectAIPhishingWith st.longBranch content, st)

/-! ## Composite aggregator (`src/content/notifier.js`, bootstrap IIFE) -/

/-- The metrics record assembled by `analyzePage` and consumed by
`computeAdvancedCompositeScore`.  `aiConfidencePow` carries the value of
`Math.pow(aiConfidence, 1.5)`; witnesses use inputs whose 1.5-power is
exactly representable. -/
structure CompositeMetrics where
  aiProbability : ℚ
  aiConfidence : ℚ
  aiConfidencePow : ℚ
  urgencyScore : ℚ
  persuasionScore : ℚ
  persuasionCount : ℕ
  llmScore : ℚ
  llmRiskFactors : ℕ
  domainRisk : ℚ
  jailbreakHits : ℚ
  jailbreakCritical : ℕ
  manipulationTechniques : ℕ
  credibilityScore : ℚ
  deriving DecidableEq

/-- Relation stating that `p` models `Math.pow(c, 1.5)` for `c ≥ 0`: the non-negative value with
`p² = c³`. -/
def IsPow15 (c p : ℚ) : Prop := 0 ≤ p ∧ p ^ 2 = c ^ 3

/-- AI term of `computeAdvancedCompositeScore`:
`aiProbability * pow(aiConfidence, 1.5) * 20`. -/
def aiContribution (m : CompositeMetrics) : ℚ := m.aiProbability * m.aiConfidencePow * 20

/-- Urgency term: `urgencyScore * 12`, counted only above the 0.3 threshold. -/
def urgencyContribution (m : CompositeMetrics) : ℚ :=
  if 0.3 < m.urgencyScore then m.urgencyScore * 12 else 0

/-- Persuasion term: `min(persuasionScore, 1) * 10`, above the 0.2 threshold. -/
def persuasionContribution (m : CompositeMetrics) : ℚ :=
  if 0.2 < m.persuasionScore then min m.persuasionScore 1 * 10 else 0

/-- LLM term: `llmScore * 15 * (1 + min(riskFactors*0.15, 0.5))`, above the
0.25 threshold. -/
def llmContribution (m : CompositeMetrics) : ℚ :=
  if 0.25 < m.llmScore then
    m.llmScore * 15 * (1 + min ((m.llmRiskFactors : ℚ) * 0.15) 0.5)
  else 0

/-- Domain term: `domainRisk / 100 * 25`. -/
def domainContribution (m : CompositeMetrics) : ℚ := m.domainRisk / 100 * 25

/-- Jailbreak term: `min(hits*2.5, 12)` with a 1.8 multiplier when any
critical hit is present, zero when there are no hits. -/
def jailbreakContribution (m : CompositeMetrics) : ℚ :=
  if 0 < m.jailbreakHits then
    min (m.jailbreakHits * 2.5) 12 * (if 0 < m.jailbreakCritical then 1.8 else 1)
  else 0

/-- Manipulation term: `min(count*2, 8)` when any technique is present. -/
def manipulationContribution (m : CompositeMetrics) : ℚ :=
  if 0 < m.manipulationTechniques then min ((m.manipulationTechniques : ℚ) * 2) 8 else 0

/-- Credibility penalty: `(1 - credibilityScore) * 12` below the 0.7
threshold (`abs(weights.credibility) = 12`). -/
def credibilityContribution (m : CompositeMetrics) : ℚ :=
  if m.credibilityScore < 0.7 then (1 - m.credibilityScore) * 12 else 0

/-- The running total accumulated by `computeAdvancedCompositeScore`. -/
def compositeSum (m : CompositeMetrics) : ℚ :=
  aiContribution m + urgencyContribution m + persuasionContribution m + llmContribution m
    + domainContribution m + jailbreakContribution m + manipulationContribution m
    + credibilityContribution m

structure CompositeBreakdown where
  aiAnalysis : ℚ
  urgency : ℚ
  persuasion : ℚ
  llmFingerprint : ℚ
  domainReputation : ℚ
  jailbreakAttempts : ℚ
  manipulationTactics : ℚ
  credibilityPenalty : ℚ
  deriving DecidableEq

structure CompositeScoreResult where
  total : ℚ
  breakdown : CompositeBreakdown
  confidence : ℚ
  deriving DecidableEq

/-- Embedding of `computeAdvancedCompositeScore` from `src/content/notifier.js`: the
contributions above summed in source order, the total capped at 100, the
breakdown entries rounded to two decimals. -/
def computeAdvancedCompositeScore (m : CompositeMetrics) : CompositeScoreResult where
  total := min (compositeSum m) 100
  breakdown :=
    { aiAnalysis := round2 (aiContribution m)
      urgency := round2 (urgencyContribution m)
      persuasion := round2 (persuasionContribution m)
      llmFingerprint := round2 (llmContribution m)
      domainReputation := round2 (domainContribution m)
      jailbreakAttempts := round2 (jailbreakContribution m)
      manipulationTactics := round2 (manipulationContribution m)
      credibilityPenalty := round2 (credibilityContribution m) }
  confidence := m.aiConfidence

/-- Modelled from the claim: the documented weighted-sum formula, with the
sum clamped to `[0, 100]`. -/
def claimCompositeTotal (m : CompositeMetrics) : ℚ :=
  let s :=
    m.aiProbability * m.aiConfidencePow * 20
      + (if 0.3 < m.urgencyScore then m.urgencyScore * 12 else 0)
      + (if 0.2 < m.persuasionScore then min m.persuasionScore 1 * 10 else 0)
      + (if 0.25 < m.llmScore then
          m.llmScore * 15 * (1 + min ((m.llmRiskFactors : ℚ) * 0.15) 0.5)
        else 0)
      + m.domainRisk / 100 * 25
      + (if 0 < m.jailbreakHits then
          min (m.jailbreakHits * 2.5) 12 * (if 0 < m.jailbreakCritical then 1.8 else 1)
        else 0)
      + min ((m.manipulationTechniques : ℚ) * 2) 8
      + (if m.credibilityScore < 0.7 then (1 - m.credibilityScore) * 12 else 0)
  max 0 (min s 100)

/-! ## Page analysis pipeline (`analyzePage` and helpers in
`src/content/notifier.js`) -/

structure TyposquattingSummary where
  isTyposquat : Bool
  confidence : ℚ
  deriving DecidableEq

/-- The fields of a `DomainReputation.checkDomain` result consulted by the
pipeline (`riskScore` and `advancedAnalysis.typosquatting`). -/
structure DomainAnalysisResult where
  riskScore : ℚ
  typosquatting : Option TyposquattingSummary
  deriving DecidableEq

/-- The detector outputs entering one `analyzePage` cycle.  `jailbreakHits`
is the number returned by `scanPage` (its `results.totalHits`, which may be
fractional through heuristic suspicion scores). -/
structure AnalysisInput where
  aiResult : AIAnalysisResult
  llmResult : LLMFingerprintResult
  domainResult : Option DomainAnalysisResult
  jailbreakHits : ℚ
  aiConfidencePow : ℚ
  deriving DecidableEq

/-- The metrics object built inside `analyzePage`.  Because `scanPage`
returns a plain number, `jailbreakResult?.criticalHits` is `undefined` and
`jailbreakCritical` is always 0; `credibilityScore || 1` turns a 0 score
into 1; `domainResult?.riskScore ?? 0` defaults an absent domain result
to 0. -/
def mkCompositeMetrics (inp : AnalysisInput) : CompositeMetrics where
  aiProbability := inp.aiResult.aiProbability
  aiConfidence := inp.aiResult.confidence
  aiConfidencePow := inp.aiConfidencePow
  urgencyScore := inp.aiResult.urgencyScore
  persuasionScore := inp.aiResult.persuasionScore
  persuasionCount := inp.aiResult.persuasionFlags.length
  llmScore := inp.llmResult.score
  llmRiskFactors := inp.llmResult.riskFactors.length
  domainRisk := (inp.domainResult.map DomainAnalysisResult.riskScore).getD 0
  jailbreakHits := inp.jailbreakHits
  jailbreakCritical := 0
  manipulationTechniques := inp.aiResult.manipulationTechniques.length
  credibilityScore :=
    if inp.aiResult.credibilityScore = 0 then 1 else inp.aiResult.credibilityScore

/-- Embedding of `countIndependentSignals`: how many of the six independent boolean
conditions hold (`credentialRisk` is `domainResult?.riskScore || 0`). -/
def countIndependentSignals (inp : AnalysisInput) : ℕ :=
  (if 0.7 < inp.aiResult.aiProbability ∧ 0.6 < inp.aiResult.confidence then 1 else 0)
    + (if 0.6 < inp.aiResult.urgencyScore then 1 else 0)
    + (match inp.domainResult with
        | some d => if 60 < d.riskScore then 1 else 0
        | none => 0)
    + (if 2 ≤ inp.jailbreakHits then 1 else 0)
    + (if 0.6 < inp.llmResult.score ∧ 0 < inp.llmResult.riskFactors.length then 1 else 0)
    + (if 70 < (inp.domainResult.map DomainAnalysisResult.riskScore).getD 0 then 1 else 0)

/-- The `criticalConditions` array of `deriveEnhancedRiskLevel`: true when
any of the six critical overrides holds. -/
def anyCriticalCondition (inp : AnalysisInput) : Bool :=
  let c1 := match inp.domainResult with
    | some d => decide (85 ≤ d.riskScore)
    | none => false
  let c2 := match inp.domainResult with
    | some d =>
        match d.typosquatting with
        | some t => t.isTyposquat && decide (0.9 < t.confidence)
        | none => false
    | none => false
  let c3 := decide (5 ≤ inp.jailbreakHits)
  let c4 := decide (0.85 < inp.aiResult.urgencyScore) && decide (0.75 < inp.llmResult.score)
  let c5 := decide (2 ≤ (inp.llmResult.riskFactors.filter fun rf => rf.severity == "critical").length)
  let c6 := decide (2 ≤ (inp.aiResult.manipulationTechniques.filter fun mt => mt.severity == "high").length)
    && decide (0.7 < inp.aiResult.urgencyScore)
  c1 || c2 || c3 || c4 || c5 || c6

/-- Embedding of `deriveEnhancedRiskLevel`: any critical condition forces "high";
otherwise thresholds 80/50/30 on the numeric total.  The
`independentSignals` argument is accepted but never consulted by the
source function. -/
def deriveEnhancedRiskLevel (cs : CompositeScoreResult) (inp : AnalysisInput)
    (_signals : ℕ) : String :=
  if anyCriticalCondition inp then "high"
  else if 80 ≤ cs.total then "high"
  else if 50 ≤ cs.total then "medium"
  else if 30 ≤ cs.total then "low"
  else "low"

/-- The risk level derived by one `analyzePage` cycle. -/
def analysisRiskLevel (inp : AnalysisInput) : String :=
  deriveEnhancedRiskLevel (computeAdvancedCompositeScore (mkCompositeMetrics inp)) inp
    (countIndependentSignals inp)

/-- Condition of the high-risk warning toast in `analyzePage`:
`riskLevel === "high" && total >= 80 && independentSignals.count >= 2`. -/
def highRiskWarnShown (inp : AnalysisInput) : Bool :=
  (analysisRiskLevel inp == "high")
    && decide (80 ≤ (computeAdvancedCompositeScore (mkCompositeMetrics inp)).total)
    && decide (2 ≤ countIndependentSignals inp)

/-- Condition of the medium-risk notice toast in `analyzePage`:
`riskLevel === "medium" && total >= 60 && independentSignals.count >= 2`. -/
def mediumInfoShown (inp : AnalysisInput) : Bool :=
  (analysisRiskLevel inp == "medium")
    && decide (60 ≤ (computeAdvancedCompositeScore (mkCompositeMetrics inp)).total)
    && decide (2 ≤ countIndependentSignals inp)

/-! ## Domain reputation typosquat analysis (`DomainReputation`,
`src/unnamed/part_004`) -/

/-- The `commonDomains` brand list, in source order. -/
def commonDomains : List String :=
  ["google", "facebook", "microsoft", "apple", "amazon", "netflix", "twitter",
   "instagram", "linkedin", "youtube", "zoom", "slack", "dropbox", "adobe",
   "paypal", "chase", "bankofamerica", "wellsfargo", "citibank", "usbank",
   "capitalone", "americanexpress", "discover", "visa", "mastercard",
   "ebay", "walmart", "target", "bestbuy", "costco", "etsy",
   "outlook", "gmail", "yahoo", "protonmail", "icloud",
   "coinbase", "binance", "kraken", "blockchain", "crypto",
   "irs", "usps", "fedex", "ups", "dhl"]

/-- The base label `domain.split(".")[0]`. -/
def splitBaseDomain (domain : List Char) : List Char :=
  domain.takeWhile fun c => !(c == '.')

/-- The leetspeak substitution table of `checkCharacterSubstitution`, in
source order. -/
def substitutionTable : List (Char × List Char) :=
  [('l', ['1', 'i']), ('i', ['l', '1']), ('o', ['0']), ('0', ['o']),
   ('s', ['5', '$']), ('a', ['@']), ('e', ['3']), ('g', ['9']), ('b', ['8'])]

/-- Embedding of `DomainReputation.checkCharacterSubstitution`: the squat must equal the
target with every occurrence of one character globally replaced
(`target.replace(new RegExp(original, 'g'), replacement)`). -/
def checkCharacterSubstitution (squat target : List Char) : Bool :=
  substitutionTable.any fun st =>
    st.2.any fun rep => squat == target.map fun c => if c = st.1 then rep else c

/-- The transposition scan inside `identifyTyposquatTechnique`. -/
def hasTransposition (squat target : List Char) : Bool :=
  (List.range (target.length - 1)).any fun i =>
    squat.getD i 'a' == target.getD (i + 1) 'a'
      && squat.getD (i + 1) 'a' == target.getD i 'a'

/-- Embedding of `DomainReputation.identifyTyposquatTechnique`. -/
def identifyTyposquatTechnique (squat target : List Char) : String :=
  if squat.length = target.length + 1 then "insertion"
  else if squat.length + 1 = target.length then "omission"
  else if squat.length = target.length then
    if hasTransposition squat target then "transposition" else "substitution"
  else "unknown"

/-- JavaScript `String.prototype.includes`: contiguous substring test. -/
def listContainsSub (hay needle : List Char) : Bool :=
  hay.tails.any fun t => needle.isPrefixOf t

/-- The result record of `advancedTyposquatAnalysis` (`distance = none`
models the `Infinity` initial value). -/
structure TyposquatAnalysis where
  isTyposquat : Bool
  likelyTarget : Option String
  distance : Option ℕ
  technique : Option String
  confidence : ℚ
  deriving DecidableEq

/-- One iteration of the `advancedTyposquatAnalysis` brand loop: the
Levenshtein check (updating the best match and, at distance 1, the
technique), then the character-substitution check, then the
combosquatting check. -/
def typosquatStep (base : List Char) (r : TyposquatAnalysis) (target : String) :
    TyposquatAnalysis :=
  let t := target.toList
  let d := levenshteinDistance base t
  let better :=
    decide (d ≤ 2) && (match r.distance with | none => true | some d0 => decide (d < d0))
  let r1 :=
    if better then
      { r with
        isTyposquat := true
        likelyTarget := some target
        distance := some d
        confidence := 1 - (d : ℚ) / ((max base.length t.length : ℕ) : ℚ)
        technique := if d = 1 then some (identifyTyposquatTechnique base t) else r.technique }
    else r
  let r2 :=
    if checkCharacterSubstitution base t then
      { r1 with
        isTyposquat := true
        likelyTarget := some target
        technique := some "character_substitution"
        confidence := 0.9 }
    else r1
  if listContainsSub base t && !(base == t) then
    { r2 with
      isTyposquat := true
      likelyTarget := some target
      technique := some "combosquatting"
      confidence := 0.85 }
  else r2

/-- Embedding of `DomainReputation.advancedTyposquatAnalysis`: fold the brand loop over
`commonDomains` starting from the empty result. -/
def advancedTyposquatAnalysis (domain : List Char) : TyposquatAnalysis :=
  commonDomains.foldl (typosquatStep (splitBaseDomain domain))
    { isTyposquat := false, likelyTarget := none, distance := none,
      technique := none, confidence := 0 }

/-! ## Background domain risk scoring (`src/background/serviceWorker.js`) -/

/-- The record `last_analysis_stats` as consumed by `scoreDomainRisk`: `malicious` is
absent on the `{error}` shape. -/
structure VirusTotalStats where
  malicious : Option ℚ
  deriving DecidableEq

/-- Safe-Browsing response as consumed by `scoreDomainRisk`: the length of
the `matches` array when that field is present. -/
structure SafeBrowsingResult where
  matchCount : Option ℕ
  deriving DecidableEq

/-- The bundle built by `fetchRemoteSignals`; either feed result is `null`
when its API key is missing. -/
structure RemoteSignals where
  vtResult : Option VirusTotalStats
  gsbResult : Option SafeBrowsingResult
  deriving DecidableEq

/-- The local signals consumed by `scoreDomainRisk` (its `parts` field is
never read there). -/
structure LocalSignals where
  typosquatLikelihood : ℚ
  entropy : ℚ
  isPunycode : Bool
  deriving DecidableEq

/-- The check `remoteSignals.vtResult?.malicious > 0`. -/
def vtFlagged (r : RemoteSignals) : Bool :=
  match r.vtResult with
  | some v => match v.malicious with | some m => decide (0 < m) | none => false
  | none => false

/-- Truthiness of `remoteSignals.gsbResult?.matches?.length`. -/
def gsbFlagged (r : RemoteSignals) : Bool :=
  match r.gsbResult with
  | some g => match g.matchCount with | some n => decide (n ≠ 0) | none => false
  | none => false

/-- The body of `scoreDomainRisk` once the bundle has been dereferenced:
local contributions 35/15/25, remote contributions 30/30, capped at 100. -/
def scoreDomainRiskCore (l : LocalSignals) (r : RemoteSignals) : ℚ :=
  let s1 : ℚ := if 0.6 < l.typosquatLikelihood then 35 else 0
  let s2 := s1 + (if 4 < l.entropy then 15 else 0)
  let s3 := s2 + (if l.isPunycode then 25 else 0)
  let s4 := s3 + (if vtFlagged r then 30 else 0)
  let s5 := s4 + (if gsbFlagged r then 30 else 0)
  min s5 100

/-- Embedding of `scoreDomainRisk(localSignals, remoteSignals)`: the member access
`remoteSignals.vtResult` throws a `TypeError` when the bundle itself is
`null`/`undefined`, modelled as `Except.error`. -/
def scoreDomainRisk (l : LocalSignals) (remote : Option RemoteSignals) : Except String ℚ :=
  match remote with
  | none => Except.error "TypeError: cannot read vtResult of null"
  | some r => Except.ok (scoreDomainRiskCore l r)

/-! ## Concrete inputs used by counterexamples and witnesses -/

/-- A detector outcome with zero independent signals and no critical
condition whose composite total still reaches the "medium" band. -/
def gateBypassInput : AnalysisInput where
  aiResult :=
    { aiProbability := 0.7
      confidence := 1
      persuasionFlags := ["urgent"]
      persuasionScore := 1
      urgencyScore := 0.6
      urgencyIndicators := []
      manipulationTechniques := [⟨"medium"⟩, ⟨"medium"⟩, ⟨"medium"⟩, ⟨"medium"⟩]
      credibilityScore := 0.5
      credibilityFactors := []
      recommendation := "medium" }
  llmResult :=
    { score := 0.6
      totalHits := 3
      likelyModel := none
      contextMultiplier := 1
      riskFactors := [⟨"high"⟩, ⟨"high"⟩, ⟨"high"⟩, ⟨"high"⟩] }
  domainResult := some { riskScore := 60, typosquatting := some ⟨false, 0⟩ }
  jailbreakHits := 1
  aiConfidencePow := 1

/-- A quiet page: every detector at its empty result. -/
def quietInput : AnalysisInput where
  aiResult := createEmptyResult
  llmResult := llmCreateEmptyResult
  domainResult := none
  jailbreakHits := 0
  aiConfidencePow := 0

/-- Witness metrics for the aggregator (confidence 1/4, whose 1.5-power is
exactly 1/8). -/
def witnessMetrics : CompositeMetrics where
  aiProbability := 0.5
  aiConfidence := 0.25
  aiConfidencePow := 0.125
  urgencyScore := 0.4
  persuasionScore := 0.5
  persuasionCount := 2
  llmScore := 0.3
  llmRiskFactors := 2
  domainRisk := 40
  jailbreakHits := 3
  jailbreakCritical := 1
  manipulationTechniques := 1
  credibilityScore := 0.6

/-- Four instruction-override hits in a single script fragment: the base
term `4 * 15 = 60` exceeds the 50-point cap. -/
def overflowAggregate : JailbreakAggregate where
  totalHits := 4
  criticalHits := 0
  detections := [⟨[("instructionOverride", 0.3)]⟩]

/-- A long-branch probe that marks everything as certainly AI, to show the
short-input gate really bypasses scoring. -/
def probeLongBranch : List Char → AIAnalysisResult :=
  fun _ => { createEmptyResult with aiProbability := 1, confidence := 1 }

/-- Witness components for the AI composite score. -/
def witnessComponents : AIScoreComponents where
  linguistic := 0.4
  statistical := 0.35
  semantic := 0.2
  structural := 0.1

/-- Witness local signals. -/
def witnessLocalSignals : LocalSignals where
  typosquatLikelihood := 0.8
  entropy := 3.2
  isPunycode := false

/-- A remote bundle with both feeds answering but reporting no hits. -/
def zeroHitRemoteSignals : RemoteSignals where
  vtResult := some { malicious := some 0 }
  gsbResult := some { matchCount := some 0 }

/-- A ten-entry detection history. -/
def tenEntryHistory : List DetectionRecord :=
  [⟨1, 10⟩, ⟨2, 15⟩, ⟨3, 5⟩, ⟨4, 20⟩, ⟨5, 25⟩, ⟨6, 30⟩, ⟨7, 10⟩, ⟨8, 12⟩, ⟨9, 20⟩, ⟨10, 35⟩]

/-! ## Full AI-text scoring layer (`AITextAnalyzer`, `src/unnamed/part_002`)

The sub-scorers below embed the arithmetic of the four sub-analyses and of
the persuasion/urgency/credibility scoring, as functions of the features
the regex layer extracts from the text (match counts, sentence statistics
and boolean indicator checks).  The theorems quantify over an arbitrary
feature extractor, so they hold for every text input. -/

/-- The five `aiSignatures` category weights of `calculateLinguisticAIScore`
(politeness, structure, formality, hedging, enumeration), in source order. -/
def linguisticWeights : List ℚ := [0.15, 0.12, 0.10, 0.08, 0.05]

/-- Embedding of `calculateLinguisticAIScore` over the per-category hit
counts: each category contributes `min((hits/10)*weight, weight)` and the
sum is capped at 1. -/
def calculateLinguisticAIScore (hits : List ℕ) : ℚ :=
  min (((linguisticWeights.zip hits).map fun p => min ((p.2 : ℚ) / 10 * p.1) p.1).sum) 1

/-- The sentence/word statistics consumed by `calculateStatisticalAIScore`
(sentence count, mean sentence length, length variance, coefficient of
variation, type-token ratio). -/
structure StatisticalFeatures where
  sentenceCount : ℕ
  avgLength : ℚ
  variance : ℚ
  cv : ℚ
  ttr : ℚ
  deriving DecidableEq

/-- Embedding of `calculateStatisticalAIScore`: zero below 3 sentences,
otherwise the four threshold checks add 0.2/0.15/0.15/0.1. -/
def calculateStatisticalAIScore (f : StatisticalFeatures) : ℚ :=
  if f.sentenceCount < 3 then 0
  else
    (if f.variance < 20 then 0.2 else 0)
      + (if 15 ≤ f.avgLength ∧ f.avgLength ≤ 25 then 0.15 else 0)
      + (if f.cv < 0.4 then 0.15 else 0)
      + (if 0.4 ≤ f.ttr ∧ f.ttr ≤ 0.6 then 0.1 else 0)

/-- The ratios and counts consumed by `calculateSemanticAIScore`. -/
structure SemanticFeatures where
  repetitiveStartRatio : ℚ
  weakVerbRatio : ℚ
  passiveCount : ℕ
  deriving DecidableEq

/-- Embedding of `calculateSemanticAIScore`: three 0.1 additions, capped
at 0.3. -/
def calculateSemanticAIScore (f : SemanticFeatures) : ℚ :=
  min ((if 0.05 < f.repetitiveStartRatio then 0.1 else 0)
      + (if 0.15 < f.weakVerbRatio then 0.1 else 0)
      + (if 2 < f.passiveCount then 0.1 else 0))
    0.3

/-- The formatting indicators consumed by `calculateStructuralAIScore`. -/
structure StructuralFeatures where
  hasBulletPoints : Bool
  hasNumberedLists : Bool
  avgParagraphLength : ℚ
  deriving DecidableEq

/-- Embedding of `calculateStructuralAIScore`: three 0.1 additions, capped
at 0.3. -/
def calculateStructuralAIScore (f : StructuralFeatures) : ℚ :=
  min ((if f.hasBulletPoints then 0.1 else 0)
      + (if f.hasNumberedLists then 0.1 else 0)
      + (if 3 ≤ f.avgParagraphLength ∧ f.avgParagraphLength ≤ 6 then 0.1 else 0))
    0.3

/-- Embedding of the score of `detectPersuasionPatterns` over the matched
keyword counts per tactic category: `Σ count*0.15`, capped at 1. -/
def detectPersuasionScore (matchCounts : List ℕ) : ℚ :=
  min ((matchCounts.map fun (n : ℕ) => (n : ℚ) * 0.15).sum) 1

/-- Embedding of the score of `measureUrgencyTactics` over the per-pattern
match counts and the exclamation-mark count: `Σ count*0.2`, plus
`min(exclamations*0.05, 0.3)` above 3 exclamation marks, capped at 1. -/
def measureUrgencyScore (patternCounts : List ℕ) (exclamationCount : ℕ) : ℚ :=
  min ((patternCounts.map fun (n : ℕ) => (n : ℚ) * 0.2).sum
      + (if 3 < exclamationCount then min ((exclamationCount : ℚ) * 0.05) 0.3 else 0))
    1

/-- The boolean indicator checks of `assessCredibilitySignals`. -/
structure CredibilityFeatures where
  hasClickBait : Bool
  hasGenericGreeting : Bool
  excessiveExclamations : Bool
  usesHttps : Bool
  deriving DecidableEq

/-- Embedding of the score of `assessCredibilitySignals`: start at 1,
subtract 0.15/0.2/0.1 for the negative signals, add 0.05 for HTTPS links,
clamp to `[0, 1]`. -/
def assessCredibilityScore (f : CredibilityFeatures) : ℚ :=
  let c1 : ℚ := 1
  let c2 := c1 - (if f.hasClickBait then 0.15 else 0)
  let c3 := c2 - (if f.hasGenericGreeting then 0.2 else 0)
  let c4 := c3 - (if f.excessiveExclamations then 0.1 else 0)
  let c5 := c4 + (if f.usesHttps then 0.05 else 0)
  max 0 (min c5 1)

/-- Embedding of `generateWarningLevel`. -/
def generateWarningLevel (aiScore urgency : ℚ) (persuasionFlagCount : ℕ)
    (manipulation : List ManipulationTechnique) : String :=
  let highRiskManipulation := manipulation.any fun m => m.severity == "high"
  if (highRiskManipulation && decide (0.7 < urgency))
      || (decide (0.7 < aiScore) && decide (4 < persuasionFlagCount) && decide (0.5 < urgency)) then
    "high"
  else if decide (0.5 < urgency) || decide (2 < persuasionFlagCount)
      || (decide (0.6 < aiScore) && decide (0 < manipulation.length)) then
    "medium"
  else "low"

/-- Everything the regex layer extracts from an accepted text for
`analyzeText`. -/
structure AITextFeatures where
  linguisticHits : List ℕ
  statistical : StatisticalFeatures
  semantic : SemanticFeatures
  structural : StructuralFeatures
  persuasionCounts : List ℕ
  persuasionFlags : List String
  urgencyCounts : List ℕ
  exclamationCount : ℕ
  urgencyIndicators : List String
  manipulationTechniques : List ManipulationTechnique
  credibility : CredibilityFeatures
  credibilityFactors : List String

/-- The long branch of `analyzeText`: run the four sub-analyses, combine
them with `calculateCompositeAIScore`, score persuasion, urgency and
credibility, and assemble the result record with 3-decimal rounding as in
the source. -/
def analyzeTextAssemble (fx : List Char → AITextFeatures) (content : List Char) :
    AIAnalysisResult :=
  let f := fx content
  let aiScore := calculateCompositeAIScore
    { linguistic := calculateLinguisticAIScore f.linguisticHits
      statistical := calculateStatisticalAIScore f.statistical
      semantic := calculateSemanticAIScore f.semantic
      structural := calculateStructuralAIScore f.structural }
  let persuasionScore := detectPersuasionScore f.persuasionCounts
  let urgencyScore := measureUrgencyScore f.urgencyCounts f.exclamationCount
  let credibilityScore := assessCredibilityScore f.credibility
  { aiProbability := round3 aiScore.probability
    confidence := round3 aiScore.confidence
    persuasionFlags := f.persuasionFlags
    persuasionScore := round3 persuasionScore
    urgencyScore := round3 urgencyScore
    urgencyIndicators := f.urgencyIndicators
    manipulationTechniques := f.manipulationTechniques
    credibilityScore := round3 credibilityScore
    credibilityFactors := f.credibilityFactors
    recommendation := generateWarningLevel aiScore.probability urgencyScore
      f.persuasionFlags.length f.manipulationTechniques }

/-- The method `analyzeText` with its scoring layer spelled out: the
short-input gate in front of `analyzeTextAssemble`, parametric in the
regex feature extractor. -/
def analyzeTextFull (fx : List Char → AITextFeatures) (content : List Char) :
    AIAnalysisResult :=
  analyzeTextWith (analyzeTextAssemble fx) content

/-! ## Full LLM fingerprint scoring layer
(`src/content/detectors/llmFingerprinter.js`) -/

/-- The eight signature categories of the fingerprinter with their model
labels and weights, in source order. -/
def llmCategories : List (String × String × ℚ) :=
  [("gptSignatures", "GPT", 0.25), ("claudeSignatures", "Claude", 0.20),
   ("unnaturalPoliteness", "Generic", 0.15), ("genericGreetings", "Phishing", 0.20),
   ("urgencyMarkers", "Phishing", 0.25), ("signaturePatterns", "Impersonation", 0.18),
   ("structuredPatterns", "Generic", 0.12), ("overExplanation", "Generic", 0.10)]

/-- The accumulation `modelSignatures[type] += categoryScore` on an
association list. -/
def addModelSignature : List (String × ℚ) → String → ℚ → List (String × ℚ)
  | [], ty, sc => [(ty, sc)]
  | (t, v) :: rest, ty, sc =>
      if t = ty then (t, v + sc) :: rest else (t, v) :: addModelSignature rest ty sc

/-- The category loop of `detectAIPhishing`: for every category with hits,
add `min(hits*0.1*weight, weight)` to the total and to the per-model
signature table. -/
def llmAccumulate (hits : List ℕ) : ℚ × List (String × ℚ) :=
  (llmCategories.zip hits).foldl
    (fun acc p =>
      if 0 < p.2 then
        let cScore := min ((p.2 : ℚ) * 0.1 * p.1.2.2) p.1.2.2
        (acc.1 + cScore, addModelSignature acc.2 p.1.2.1 cScore)
      else acc)
    (0, [])

/-- Embedding of `calculateContextMultiplier`: the largest applicable
multiplier (financial 1.5, credential 1.4, urgent 1.3), defaulting to 1. -/
def calculateContextMultiplier (financial credential urgent : Bool) : ℚ :=
  let m1 : ℚ := 1
  let m2 := if financial then max m1 1.5 else m1
  let m3 := if credential then max m2 1.4 else m2
  if urgent then max m3 1.3 else m3

/-- Embedding of the score of `analyzeHeuristics`: condition-gated
additions 0.1/0.15/0.1/0.08/0.1, capped at 0.4. -/
def analyzeHeuristicsScore
    (excessiveFormality suspiciousGrammar unnaturalRhythm overStructured
      repetitivePhrases : Bool) : ℚ :=
  min ((if excessiveFormality then 0.1 else 0)
      + (if suspiciousGrammar then 0.15 else 0)
      + (if unnaturalRhythm then 0.1 else 0)
      + (if overStructured then 0.08 else 0)
      + (if repetitivePhrases then 0.1 else 0))
    0.4

/-- Embedding of `identifyLikelyModel` over the signature table: the top
score wins (stable on ties, as the JS sort is), a model is claimed only
above 0.15, with confidence `min(topScore*2, 1)` rounded to 3 decimals. -/
def identifyLikelyModel (sigs : List (String × ℚ)) : Option LikelyModel :=
  match sigs with
  | [] => none
  | s :: rest =>
      let top := rest.foldl (fun best cur => if best.2 < cur.2 then cur else best) s
      if 0.15 < top.2 then some ⟨top.1, round3 (min (top.2 * 2) 1)⟩ else none

/-- Everything the regex layer extracts from an accepted text for
`detectAIPhishing`. -/
structure LLMFeatures where
  categoryHits : List ℕ
  financialContext : Bool
  credentialContext : Bool
  urgentContext : Bool
  excessiveFormality : Bool
  suspiciousGrammar : Bool
  unnaturalRhythm : Bool
  overStructured : Bool
  repetitivePhrases : Bool
  totalHits : ℕ
  riskFactors : List LLMRiskFactor

/-- The long branch of `detectAIPhishing`: weighted category scores, the
context multiplier, the heuristic bonus, the score capped at 1 and rounded
to 3 decimals, the multiplier rounded to 2. -/
def detectAIPhishingAssemble (fx : List Char → LLMFeatures) (content : List Char) :
    LLMFingerprintResult :=
  let f := fx content
  let acc := llmAccumulate f.categoryHits
  let multiplier := calculateContextMultiplier f.financialContext f.credentialContext
    f.urgentContext
  let heur := analyzeHeuristicsScore f.excessiveFormality f.suspiciousGrammar
    f.unnaturalRhythm f.overStructured f.repetitivePhrases
  { score := round3 (min (acc.1 * multiplier + heur) 1)
    totalHits := f.totalHits
    likelyModel := identifyLikelyModel acc.2
    contextMultiplier := round2 multiplier
    riskFactors := f.riskFactors }

/-- The method `detectAIPhishing` with its scoring layer spelled out. -/
def detectAIPhishingFull (fx : List Char → LLMFeatures) (content : List Char) :
    LLMFingerprintResult :=
  detectAIPhishingWith (detectAIPhishingAssemble fx) content

/-! ## Jailbreak fragment analysis (`JailbreakDetector.analyzeNode`) -/

/-- The eight pattern-category weights of the jailbreak scanner, in source
order. -/
def jailbreakCategoryWeights : List (String × ℚ) :=
  [("instructionOverride", 0.3), ("rolePlay", 0.25), ("promptExtraction", 0.25),
   ("delimiterInjection", 0.30), ("hypotheticalScenarios", 0.15),
   ("encodingAttempts", 0.20), ("reversePsychology", 0.10),
   ("contextManipulation", 0.15)]

/-- What `analyzeNode` extracts from one scanned fragment: the match count
per pattern category and the four heuristic indicator checks. -/
structure FragmentFeatures where
  categoryMatchCounts : List ℕ
  manyBase64 : Bool
  manyEscapes : Bool
  manyImperatives : Bool
  promptLikeStructure : Bool

/-- The `suspicionScore` of `performHeuristicAnalysis`: 0.5/0.3/0.4/0.6
for the four heuristic indicators. -/
def suspicionScoreOf (f : FragmentFeatures) : ℚ :=
  (if f.manyBase64 then 0.5 else 0) + (if f.manyEscapes then 0.3 else 0)
    + (if f.manyImperatives then 0.4 else 0) + (if f.promptLikeStructure then 0.6 else 0)

/-- The `suspicious` flag of `performHeuristicAnalysis`. -/
def fragmentIsSuspicious (f : FragmentFeatures) : Bool :=
  f.manyBase64 || f.manyEscapes || f.manyImperatives || f.promptLikeStructure

/-- The `hits` counter of one `analyzeNode` result: the pattern match
counts plus, when suspicious, the heuristic suspicion score. -/
def fragmentHits (f : FragmentFeatures) : ℚ :=
  (f.categoryMatchCounts.map fun (n : ℕ) => (n : ℚ)).sum
    + (if fragmentIsSuspicious f then suspicionScoreOf f else 0)

/-- The `patterns` table of one `analyzeNode` result: the matched
categories with their weights, plus a heuristics entry when suspicious. -/
def fragmentDetection (f : FragmentFeatures) : JailbreakDetection :=
  { patterns :=
      ((jailbreakCategoryWeights.zip f.categoryMatchCounts).filter
          fun p => decide (0 < p.2)).map Prod.fst
        ++ (if fragmentIsSuspicious f then [("heuristics", suspicionScoreOf f)] else []) }

/-- The aggregate `scanPage` builds from its scanned fragments: only
fragments with positive hits are pushed and summed (`criticalHits` counts
the hit fragments at critical severity or from suspicious data attributes;
every reachable count is some natural). -/
def mkJailbreakAggregate (frags : List FragmentFeatures) (criticalHits : ℕ) :
    JailbreakAggregate :=
  let hit := frags.filter fun f => decide (0 < fragmentHits f)
  { totalHits := (hit.map fragmentHits).sum
    criticalHits := criticalHits
    detections := hit.map fragmentDetection }

/-! ## Brand impersonation (`DomainReputation.detectBrandImpersonation`) -/

/-- The per-brand confidence hits of `detectBrandImpersonation`: 0.8 for a
strict brand substring of the base label, 0.9 for a hyphen-adjacent brand. -/
def brandImpersonationHits (domain : List Char) : List ℚ :=
  let base := (splitBaseDomain domain).map Char.toLower
  commonDomains.foldl
    (fun acc brand =>
      let t := brand.toList
      let acc1 :=
        if listContainsSub base t && !(base == t) then acc ++ [(0.8 : ℚ)] else acc
      if listContainsSub base (t ++ ['-']) || listContainsSub base ('-' :: t) then
        acc1 ++ [(0.9 : ℚ)]
      else acc1)
    []

/-- The overall `confidence` of `detectBrandImpersonation`: the maximum
over the brand hits, 0 when there is none. -/
def detectBrandImpersonationConfidence (domain : List Char) : ℚ :=
  let hits := brandImpersonationHits domain
  if hits.length = 0 then 0 else hits.foldl max 0

/-! ## Concrete feature inputs for the range witnesses -/

/-- A text whose every extracted feature is zero or empty. -/
def zeroTextFeatures : AITextFeatures where
  linguisticHits := [0, 0, 0, 0, 0]
  statistical := ⟨0, 0, 0, 0, 0⟩
  semantic := ⟨0, 0, 0⟩
  structural := ⟨false, false, 0⟩
  persuasionCounts := [0, 0, 0, 0, 0, 0, 0]
  persuasionFlags := []
  urgencyCounts := []
  exclamationCount := 0
  urgencyIndicators := []
  manipulationTechniques := []
  credibility := ⟨false, false, false, false⟩
  credibilityFactors := []

/-- A constant extractor delivering the zero features. -/
def witnessTextExtractor : List Char → AITextFeatures := fun _ => zeroTextFeatures

/-- LLM features with seven GPT-signature hits, enough for a model claim
(category score 0.175 > 0.15, confidence `round3(min(0.35, 1)) = 0.35`). -/
def witnessLLMFeatures : LLMFeatures where
  categoryHits := [7, 0, 0, 0, 0, 0, 0, 0]
  financialContext := false
  credentialContext := false
  urgentContext := false
  excessiveFormality := false
  suspiciousGrammar := false
  unnaturalRhythm := false
  overStructured := false
  repetitivePhrases := false
  totalHits := 7
  riskFactors := []

/-- A constant extractor delivering the witness LLM features. -/
def witnessLLMExtractor : List Char → LLMFeatures := fun _ => witnessLLMFeatures

/-- A 113-character input, long enough for both text detectors. -/
def longContent : List Char :=
  "Please note that your account requires immediate verification. Kindly respond at your earliest convenience today.".toList

/-- A fragment with two instruction-override matches and a prompt-like
structure. -/
def witnessFragment : FragmentFeatures where
  categoryMatchCounts := [2, 0, 0, 0, 0, 0, 0, 0]
  manyBase64 := false
  manyEscapes := false
  manyImperatives := false
  promptLikeStructure := true

theorem editDistance_nil_left (ys : List Char) : editDistance [] ys = ys.length := by
  simp [editDistance]

theorem editDistance_nil_right (xs : List Char) : editDistance xs [] = xs.length := by
  cases xs <;> simp [editDistance]

theorem editDistance_cons_cons (x y : Char) (xs ys : List Char) :
    editDistance (x :: xs) (y :: ys) =
      min (editDistance xs (y :: ys) + 1)
        (min (editDistance (x :: xs) ys + 1)
          (editDistance xs ys + (if x = y then 0 else 1))) := by
  rw [editDistance]

/-- The edit distance also satisfies the matrix recurrence on the last
characters of the two words (the Wagner–Fischer prefix recurrence). -/
theorem editDistance_snoc (x y : Char) :
    ∀ xs ys : List Char,
      editDistance (xs ++ [x]) (ys ++ [y]) =
        min (editDistance xs (ys ++ [y]) + 1)
          (min (editDistance (xs ++ [x]) ys + 1)
            (editDistance xs ys + (if x = y then 0 else 1))) := by
  intro xs
  induction xs with
  | nil =>
    intro ys
    induction ys with
    | nil =>
      simp only [List.nil_append, editDistance_cons_cons, editDistance_nil_left,
        editDistance_nil_right, List.length_nil, List.length_cons]
    | cons z zs ihz =>
      simp only [List.nil_append, List.cons_append] at ihz ⊢
      simp only [editDistance_cons_cons, editDistance_nil_left]
      rw [ihz]
      simp only [editDistance_nil_left, List.length_append, List.length_cons, List.length_nil]
      generalize (if x = z then 0 else 1) = c1
      generalize (if x = y then 0 else 1) = c2
      omega
  | cons w ws ihw =>
    intro ys
    induction ys with
    | nil =>
      have h1 := ihw []
      simp only [List.nil_append, List.cons_append] at h1 ⊢
      simp only [editDistance_cons_cons, editDistance_nil_right]
      rw [h1]
      simp only [editDistance_nil_right, List.length_append, List.length_cons, List.length_nil]
      generalize (if w = y then 0 else 1) = c1
      generalize (if x = y then 0 else 1) = c2
      omega
    | cons z zs ihz =>
      have h1 := ihw (z :: zs)
      have h2 := ihz
      have h3 := ihw zs
      simp only [List.cons_append] at h1 h2 h3 ⊢
      simp only [editDistance_cons_cons]
      rw [h1, h2, h3]
      generalize (if w = z then 0 else 1) = c1
      generalize (if x = y then 0 else 1) = c2
      generalize editDistance ws (z :: (zs ++ [y])) = e1
      generalize editDistance (w :: ws) (zs ++ [y]) = e2
      generalize editDistance ws (zs ++ [y]) = e3
      generalize editDistance (ws ++ [x]) (z :: zs) = e4
      generalize editDistance (w :: (ws ++ [x])) zs = e5
      generalize editDistance (ws ++ [x]) zs = e6
      generalize editDistance ws (z :: zs) = e7
      generalize editDistance (w :: ws) zs = e8
      generalize editDistance ws zs = e9
      simp only [← min_add_add_right]
      apply le_antisymm <;> simp only [le_min_iff, min_le_iff] <;> omega

/-- Edit distance is invariant under reversing both words. -/
theorem editDistance_reverse :
    ∀ xs ys : List Char, editDistance xs.reverse ys.reverse = editDistance xs ys := by
  intro xs
  induction xs with
  | nil =>
    intro ys
    simp [editDistance_nil_left]
  | cons x xs ihx =>
    intro ys
    induction ys with
    | nil =>
      simp [editDistance_nil_right]
    | cons y ys ihy =>
      rw [List.reverse_cons, List.reverse_cons, editDistance_snoc,
        ← List.reverse_cons x, ← List.reverse_cons y]
      rw [ihx (y :: ys), ihy, ihx ys, editDistance_cons_cons]

theorem levCell_zero_left (a b : List Char) (j : ℕ) : levCell a b 0 j = j := by
  rw [levCell]

theorem levCell_succ_zero (a b : List Char) (i : ℕ) : levCell a b (i + 1) 0 = i + 1 := by
  rw [levCell]

theorem levCell_succ_succ (a b : List Char) (i j : ℕ) :
    levCell a b (i + 1) (j + 1) =
      min (levCell a b i (j + 1) + 1)
        (min (levCell a b (i + 1) j + 1)
          (levCell a b i j + (if a.getD i 'a' = b.getD j 'a' then 0 else 1))) := by
  rw [levCell]

theorem reverse_take_succ (l : List Char) (i : ℕ) (h : i < l.length) :
    (l.take (i + 1)).reverse = l.getD i 'a' :: (l.take i).reverse := by
  rw [List.take_succ, List.getElem?_eq_getElem h]
  simp [List.getD_eq_getElem?_getD, List.getElem?_eq_getElem h]

/-- Each matrix cell is the edit distance between the reversed prefixes of
the two words. -/
theorem levCell_eq_editDistance (a b : List Char) :
    ∀ i, i ≤ a.length → ∀ j, j ≤ b.length →
      levCell a b i j = editDistance ((a.take i).reverse) ((b.take j).reverse) := by
  intro i
  induction i with
  | zero =>
    intro _ j hj
    rw [levCell_zero_left]
    simp [editDistance_nil_left, Nat.min_eq_left hj]
  | succ i ihi =>
    intro hi j
    induction j with
    | zero =>
      intro _
      rw [levCell_succ_zero]
      simp [editDistance_nil_right, Nat.min_eq_left hi]
    | succ j ihj =>
      intro hj
      have hia : i < a.length := by omega
      have hjb : j < b.length := by omega
      rw [levCell_succ_succ, reverse_take_succ a i hia, reverse_take_succ b j hjb,
        editDistance_cons_cons]
      rw [ihi (by omega) (j + 1) hj, ihi (by omega) j (by omega), ihj (by omega)]
      rw [reverse_take_succ a i hia, reverse_take_succ b j hjb]

theorem rowList_getD (f : ℕ → ℕ) :
    ∀ n j0 k, k < n → (rowList f j0 n).getD k 0 = f (j0 + k) := by
  intro n
  induction n with
  | zero => intro _ _ h; omega
  | succ n ih =>
    intro j0 k hk
    cases k with
    | zero => simp [rowList]
    | succ k =>
      have := ih (j0 + 1) k (by omega)
      simpa [rowList, Nat.add_assoc, Nat.add_comm 1 k] using this

/-- The worker `levRowGo` turns row `i` of the matrix into row `i+1`, cell by cell. -/
theorem levRowGo_spec (a b : List Char) (i : ℕ) (_hia : i < a.length) :
    ∀ (bs : List Char) (j0 : ℕ), j0 + bs.length = b.length → bs = b.drop j0 →
      levRowGo (a.getD i 'a') (levCell a b (i + 1) j0)
          (rowList (levCell a b i) j0 (bs.length + 1)) bs
        = rowList (levCell a b (i + 1)) (j0 + 1) bs.length := by
  intro bs
  induction bs with
  | nil => intro j0 _ _; rfl
  | cons c cs ih =>
    intro j0 hlen hdrop
    have hj0 : j0 < b.length := by simp at hlen; omega
    have hdropc : b.drop j0 = b.getD j0 'a' :: b.drop (j0 + 1) := by
      rw [List.drop_eq_getElem_cons hj0]
      simp [List.getD_eq_getElem?_getD, List.getElem?_eq_getElem hj0]
    have hc : c = b.getD j0 'a' := by
      rw [hdropc] at hdrop; exact (List.cons.injEq _ _ _ _ ▸ hdrop).1
    have hcs : cs = b.drop (j0 + 1) := by
      rw [hdropc] at hdrop; exact (List.cons.injEq _ _ _ _ ▸ hdrop).2
    have hv :
        min (levCell a b i (j0 + 1) + 1)
            (min (levCell a b (i + 1) j0 + 1)
              (levCell a b i j0 + (if a.getD i 'a' = c then 0 else 1)))
          = levCell a b (i + 1) (j0 + 1) := by
      rw [hc, levCell_succ_succ]
    have htail := ih (j0 + 1) (by simp at hlen ⊢; omega) hcs
    simp only [rowList] at htail ⊢
    simp only [levRowGo]
    rw [hv, htail]

/-- The iteration `levFinalRow` carries row `i` of the matrix to the final row. -/
theorem levFinalRow_spec (a b : List Char) :
    ∀ (as : List Char) (i : ℕ), i + as.length = a.length → as = a.drop i →
      levFinalRow b as (i + 1) (rowList (levCell a b i) 0 (b.length + 1))
        = rowList (levCell a b a.length) 0 (b.length + 1) := by
  intro as
  induction as with
  | nil =>
    intro i hlen _
    simp at hlen
    subst hlen
    rfl
  | cons ai rest ih =>
    intro i hlen hdrop
    have hia : i < a.length := by simp at hlen; omega
    have hdropc : a.drop i = a.getD i 'a' :: a.drop (i + 1) := by
      rw [List.drop_eq_getElem_cons hia]
      simp [List.getD_eq_getElem?_getD, List.getElem?_eq_getElem hia]
    have hai : ai = a.getD i 'a' := by
      rw [hdropc] at hdrop; exact (List.cons.injEq _ _ _ _ ▸ hdrop).1
    have hrest : rest = a.drop (i + 1) := by
      rw [hdropc] at hdrop; exact (List.cons.injEq _ _ _ _ ▸ hdrop).2
    rw [levFinalRow]
    have hrow :
        (i + 1) :: levRowGo ai (i + 1) (rowList (levCell a b i) 0 (b.length + 1)) b
          = rowList (levCell a b (i + 1)) 0 (b.length + 1) := by
      have h0 : levCell a b (i + 1) 0 = i + 1 := levCell_succ_zero a b i
      have := levRowGo_spec a b i hia b 0 (by simp) (by simp)
      rw [h0] at this
      rw [hai, this, rowList, h0]
    rw [hrow]
    exact ih (i + 1) (by simp at hlen ⊢; omega) hrest

theorem rowList_eq_map_range (f : ℕ → ℕ) :
    ∀ n j0, rowList f j0 n = (List.range n).map (fun k => f (j0 + k)) := by
  intro n
  induction n with
  | zero => intro j0; rfl
  | succ n ih =>
    intro j0
    rw [List.range_succ_eq_map]
    simp only [rowList, List.map_cons, List.map_map, Nat.add_zero]
    refine congrArg _ ?_
    rw [ih (j0 + 1)]
    have hfun : (fun k => f (j0 + 1 + k)) = ((fun k => f (j0 + k)) ∘ Nat.succ) := by
      funext k
      simp only [Function.comp_apply]
      congr 1
      omega
    rw [hfun]

/-- The `utils.js` dynamic program computes `levCell` at the full lengths. -/
theorem levenshteinDistance_eq_levCell (a b : List Char) :
    levenshteinDistance a b = levCell a b a.length b.length := by
  unfold levenshteinDistance
  have hinit : List.range (b.length + 1) = rowList (levCell a b 0) 0 (b.length + 1) := by
    rw [rowList_eq_map_range]
    simp [levCell_zero_left]
  cases a with
  | nil =>
    rw [hinit]
    show (rowList (levCell [] b 0) 0 (b.length + 1)).getD b.length 0 = levCell [] b 0 b.length
    rw [rowList_getD _ _ _ _ (by omega)]
    simp
  | cons x xs =>
    rw [hinit, levFinalRow_spec (x :: xs) b (x :: xs) 0 (by simp) (by simp)]
    rw [rowList_getD _ _ _ _ (by omega)]
    simp

/-- The content-script Levenshtein function computes the standard edit
distance. -/
theorem levenshteinDistance_eq_editDistance (a b : List Char) :
    levenshteinDistance a b = editDistance a b := by
  rw [levenshteinDistance_eq_levCell,
    levCell_eq_editDistance a b a.length le_rfl b.length le_rfl]
  simp only [List.take_length]
  exact editDistance_reverse a b

theorem swLevRowGo_eq (ai : Char) :
    ∀ (bs : List Char) (left : ℕ) (prevs : List ℕ),
      swLevRowGo ai left prevs bs = levRowGo ai left prevs bs := by
  intro bs
  induction bs with
  | nil => intro left prevs; cases prevs <;> simp [swLevRowGo, levRowGo]
  | cons c cs ih =>
    intro left prevs
    match prevs with
    | [] => simp [swLevRowGo, levRowGo]
    | [_] => simp [swLevRowGo, levRowGo]
    | pd :: pj :: rest =>
      simp only [swLevRowGo, levRowGo]
      exact congrArg _ (ih _ _)

theorem swLevFinalRow_eq (b : List Char) :
    ∀ (as : List Char) (i : ℕ) (prev : List ℕ),
      swLevFinalRow b as i prev = levFinalRow b as i prev := by
  intro as
  induction as with
  | nil => intro i prev; rfl
  | cons ai rest ih =>
    intro i prev
    rw [swLevFinalRow, levFinalRow, swLevRowGo_eq]
    exact ih _ _

/-- The service-worker Levenshtein function agrees with the content-script
one on every pair of inputs. -/
theorem levenshtein_eq_levenshteinDistance (a b : List Char) :
    levenshtein a b = levenshteinDistance a b := by
  unfold levenshtein levenshteinDistance
  rw [swLevFinalRow_eq]

/-- Claim C10: for every pair of strings, the content-script
`levenshteinDistance` and the service worker function `levenshtein` return the
same value, and that value is the standard unit-cost edit distance
(insertion, deletion and substitution each cost 1) between the two
strings. -/
theorem c10_levenshtein_agreement (a b : List Char) :
    levenshteinDistance a b = levenshtein a b ∧
      levenshteinDistance a b = editDistance a b :=
  ⟨(levenshtein_eq_levenshteinDistance a b).symm, levenshteinDistance_eq_editDistance a b⟩

/-- Claim C9: calling the AI-text analyzer twice on the identical input
yields identical results, and likewise for the LLM fingerprinter; in the
state-passing embedding the first call leaves the analyzer state
untouched, so the second call returns the same result. -/
theorem c9_detectors_deterministic (stA : AITextAnalyzerState)
    (stL : LLMFingerprinterState) (content : List Char) :
    ((analyzeTextStateful stA content).1 =
        (analyzeTextStateful (analyzeTextStateful stA content).2 content).1
      ∧ (analyzeTextStateful stA content).2 = stA)
    ∧ ((detectAIPhishingStateful stL content).1 =
        (detectAIPhishingStateful (detectAIPhishingStateful stL content).2 content).1
      ∧ (detectAIPhishingStateful stL content).2 = stL) :=
  ⟨⟨rfl, rfl⟩, ⟨rfl, rfl⟩⟩

/-- Claim C6: every text input shorter than 100 characters (the empty
input included) makes the AI-text analyzer return the canonical empty
result with `aiProbability = 0` and `confidence = 0`, whatever the scoring
long branch would have computed. -/
theorem c6_short_text_empty_result (longBranch : List Char → AIAnalysisResult)
    (content : List Char) (h : content.length < 100) :
    analyzeTextWith longBranch content = createEmptyResult
      ∧ (analyzeTextWith longBranch content).aiProbability = 0
      ∧ (analyzeTextWith longBranch content).confidence = 0 := by
  have hlen : (content.map Char.toLower).length < 100 := by simpa using h
  unfold analyzeTextWith
  rw [if_pos hlen]
  exact ⟨rfl, rfl, rfl⟩

/-- Witness for C6 at a concrete 19-character input and a probe long
branch that would have reported certain AI. -/
theorem c6_short_text_empty_result_witness :
    ("Dear user, act now!".toList.length < 100)
      ∧ analyzeTextWith probeLongBranch "Dear user, act now!".toList = createEmptyResult :=
  ⟨by decide, (c6_short_text_empty_result probeLongBranch _ (by decide)).1⟩

/-- Claim C7 counterexample: `scoreDomainRisk` applied to an absent
(`null`) remote-signal bundle throws (the member access
`remoteSignals.vtResult` raises a `TypeError`), contradicting the claim
that the function is total on an absent bundle. -/
theorem c7_null_bundle_throws :
    scoreDomainRisk witnessLocalSignals none =
      Except.error "TypeError: cannot read vtResult of null" := rfl

/-- Claim C7 (amended): the scoring function is total when the bundle is
present but carries no feed hits — whenever neither feed check fires, it
returns the same score as for the bundle whose feed members are both
`null`, i.e. the remote contribution is simply omitted.  A literally
absent (`null`) bundle, however, throws. -/
theorem c7_no_hit_bundle_same_score (l : LocalSignals) (r : RemoteSignals)
    (hv : vtFlagged r = false) (hg : gsbFlagged r = false) :
    scoreDomainRisk l (some r) =
      Except.ok (scoreDomainRiskCore l { vtResult := none, gsbResult := none }) := by
  show Except.ok (scoreDomainRiskCore l r) = _
  have h1 : vtFlagged { vtResult := none, gsbResult := none } = false := rfl
  have h2 : gsbFlagged { vtResult := none, gsbResult := none } = false := rfl
  unfold scoreDomainRiskCore
  rw [hv, hg, h1, h2]

theorem jailbreakInnerFold (ps : List (String × ℚ)) (s : ℚ) :
    ps.foldl (fun s p => if p.1 = "heuristics" then s else s + p.2 * 20) s
      = s + 20 * ((ps.filter fun p => !(p.1 == "heuristics")).map Prod.snd).sum := by
  induction ps generalizing s with
  | nil => simp
  | cons p ps ih =>
    by_cases h : p.1 = "heuristics"
    · simp [List.foldl_cons, List.filter_cons, h, ih]
    · simp only [List.foldl_cons]
      rw [if_neg h, ih, List.filter_cons_of_pos (by simp [h])]
      simp only [List.map_cons, List.sum_cons]
      ring

theorem jailbreakOuterFold (ds : List JailbreakDetection) (s : ℚ) :
    ds.foldl
        (fun s d =>
          d.patterns.foldl (fun s p => if p.1 = "heuristics" then s else s + p.2 * 20) s)
        s
      = s + 20 * (ds.map fun d =>
          ((d.patterns.filter fun p => !(p.1 == "heuristics")).map Prod.snd).sum).sum := by
  induction ds generalizing s with
  | nil => simp
  | cons d ds ih =>
    simp only [List.foldl_cons, List.map_cons, List.sum_cons]
    rw [ih, jailbreakInnerFold]
    ring

/-- The fold of `calculateRiskScore` in closed form: the capped base term plus the
critical term plus twenty times the non-heuristic weight sum. -/
theorem calculateRiskScore_closedForm (r : JailbreakAggregate) :
    calculateRiskScore r =
      min (jsRound (min (r.totalHits * 15) 50 + (r.criticalHits : ℚ) * 30
        + 20 * patternWeightSum r)) 100 := by
  unfold calculateRiskScore patternWeightSum
  simp only [jailbreakOuterFold]

/-- Claim C3 counterexample: on a page with four instruction-override hits
in one script fragment (category weight 0.3), the scanner computes
`min(4*15, 50) + 0.3*20 = 56`, while the claimed uncapped formula gives
`round(4*15 + 0.3*20) = 66`. -/
theorem c3_riskscore_formula_counterexample :
    calculateRiskScore overflowAggregate = 56
      ∧ claimJailbreakRiskScore overflowAggregate = 66
      ∧ calculateRiskScore overflowAggregate ≠ claimJailbreakRiskScore overflowAggregate := by
  refine ⟨?_, ?_, ?_⟩ <;> with_unfolding_all decide

/-- Claim C3 (amended): the risk score of the scanner equals
`min(round(min(totalHits*15, 50) + criticalHits*30 + Σ(categoryWeight*20)), 100)` —
the documented formula with the base term capped at 50 points, the Σ
ranging over every matched non-heuristic pattern category of every
fragment. -/
theorem c3_riskscore_formula_amended (r : JailbreakAggregate) :
    calculateRiskScore r =
      min (jsRound (min (r.totalHits * 15) 50 + (r.criticalHits : ℚ) * 30
        + 20 * patternWeightSum r)) 100 :=
  calculateRiskScore_closedForm r

theorem updateDetectionHistory_length_le (h : List DetectionRecord) (e : DetectionRecord)
    (hh : h.length ≤ 10) : (updateDetectionHistory h e).length ≤ 10 := by
  simp only [updateDetectionHistory]
  split <;> simp_all

theorem detectEscalatingThreat_append (p : List DetectionRecord) (a b c : DetectionRecord) :
    detectEscalatingThreat (p ++ [a, b, c])
      = (decide (a.riskScore < b.riskScore) && decide (b.riskScore < c.riskScore)) := by
  have hlen : (p ++ [a, b, c]).length = p.length + 3 := by simp
  have hge : ¬((p ++ [a, b, c]).length < 3) := by rw [hlen]; omega
  have hdrop : (p ++ [a, b, c]).drop ((p ++ [a, b, c]).length - 3) = [a, b, c] := by
    rw [hlen]
    have h3 : p.length + 3 - 3 = p.length := by omega
    rw [h3, List.drop_append_of_le_length le_rfl]
    simp
  simp only [detectEscalatingThreat]
  rw [if_neg hge, hdrop]
  simp [List.getD_cons_zero, List.getD_cons_succ]

theorem exists_last_three (h : List DetectionRecord) (hlen : 3 ≤ h.length) :
    ∃ (p : List DetectionRecord) (a b c : DetectionRecord), h = p ++ [a, b, c] := by
  match hr : h.reverse with
  | [] => rw [← h.reverse_reverse, hr] at hlen; simp at hlen
  | [x] => rw [← h.reverse_reverse, hr] at hlen; simp at hlen
  | [x, y] => rw [← h.reverse_reverse, hr] at hlen; simp at hlen
  | c :: b :: a :: t =>
    refine ⟨t.reverse, a, b, c, ?_⟩
    rw [← h.reverse_reverse, hr]
    simp

/-- Claim C8: the per-hostname detection history never exceeds 10 entries
over any sequence of updates; a full history evicts its oldest entry on
update; and the escalating-threat flag holds exactly when the history ends
in three strictly increasing risk scores. -/
theorem c8_history_bound_and_escalation :
    (∀ es : List DetectionRecord, (es.foldl updateDetectionHistory []).length ≤ 10)
      ∧ (∀ h : List DetectionRecord, detectEscalatingThreat h = true ↔
          ∃ (p : List DetectionRecord) (a b c : DetectionRecord),
            h = p ++ [a, b, c] ∧ a.riskScore < b.riskScore ∧ b.riskScore < c.riskScore)
      ∧ (∀ (h : List DetectionRecord) (e : DetectionRecord), h.length = 10 →
          updateDetectionHistory h e = h.tail ++ [e]) := by
  refine ⟨?_, ?_, ?_⟩
  · intro es
    suffices hgen : ∀ acc : List DetectionRecord, acc.length ≤ 10 →
        (es.foldl updateDetectionHistory acc).length ≤ 10 by
      exact hgen [] (by simp)
    induction es with
    | nil => intro acc hacc; simpa using hacc
    | cons e es ih =>
      intro acc hacc
      exact ih _ (updateDetectionHistory_length_le acc e hacc)
  · intro h
    constructor
    · intro hesc
      have hlen : 3 ≤ h.length := by
        by_contra hc
        unfold detectEscalatingThreat at hesc
        rw [if_pos (by omega)] at hesc
        exact Bool.false_ne_true hesc
      obtain ⟨p, a, b, c, rfl⟩ := exists_last_three h hlen
      rw [detectEscalatingThreat_append] at hesc
      simp only [Bool.and_eq_true, decide_eq_true_eq] at hesc
      exact ⟨p, a, b, c, rfl, hesc.1, hesc.2⟩
    · rintro ⟨p, a, b, c, rfl, hab, hbc⟩
      rw [detectEscalatingThreat_append]
      simp [hab, hbc]
  · intro h e hlen
    unfold updateDetectionHistory
    rw [if_pos (by simp [hlen])]
    rw [List.drop_append_of_le_length (by omega)]
    rw [List.drop_one]

/-- Witness for C8: a concrete full history evicts its oldest entry, and a
concrete history ending in 10 < 12 < 35 is flagged as escalating. -/
theorem c8_history_bound_and_escalation_witness :
    tenEntryHistory.length = 10
      ∧ updateDetectionHistory tenEntryHistory ⟨11, 50⟩ = tenEntryHistory.tail ++ [⟨11, 50⟩]
      ∧ detectEscalatingThreat tenEntryHistory = true :=
  ⟨by decide,
    c8_history_bound_and_escalation.2.2 tenEntryHistory ⟨11, 50⟩ (by decide),
    (c8_history_bound_and_escalation.2.1 tenEntryHistory).2
      ⟨[⟨1, 10⟩, ⟨2, 15⟩, ⟨3, 5⟩, ⟨4, 20⟩, ⟨5, 25⟩, ⟨6, 30⟩, ⟨7, 10⟩], ⟨8, 12⟩, ⟨9, 20⟩, ⟨10, 35⟩,
        by decide, by decide, by decide⟩⟩

theorem aiContribution_nonneg (m : CompositeMetrics) (h1 : 0 ≤ m.aiProbability)
    (h2 : 0 ≤ m.aiConfidencePow) : 0 ≤ aiContribution m := by
  unfold aiContribution
  positivity

theorem urgencyContribution_nonneg (m : CompositeMetrics) : 0 ≤ urgencyContribution m := by
  unfold urgencyContribution
  split
  · nlinarith
  · exact le_refl 0

theorem persuasionContribution_nonneg (m : CompositeMetrics) :
    0 ≤ persuasionContribution m := by
  unfold persuasionContribution
  split
  · next h =>
      have hp : (0 : ℚ) ≤ min m.persuasionScore 1 := le_min (by linarith) (by norm_num)
      nlinarith
  · exact le_refl 0

theorem llmContribution_nonneg (m : CompositeMetrics) : 0 ≤ llmContribution m := by
  unfold llmContribution
  split
  · next h =>
      have hmin : (0 : ℚ) ≤ min ((m.llmRiskFactors : ℚ) * 0.15) 0.5 :=
        le_min (by positivity) (by norm_num)
      nlinarith
  · exact le_refl 0

theorem domainContribution_nonneg (m : CompositeMetrics) (h3 : 0 ≤ m.domainRisk) :
    0 ≤ domainContribution m := by
  unfold domainContribution
  positivity

theorem jailbreakContribution_nonneg (m : CompositeMetrics) :
    0 ≤ jailbreakContribution m := by
  unfold jailbreakContribution
  split
  · next h =>
      have hmin : (0 : ℚ) ≤ min (m.jailbreakHits * 2.5) 12 :=
        le_min (by nlinarith) (by norm_num)
      split <;> nlinarith
  · exact le_refl 0

theorem manipulationContribution_nonneg (m : CompositeMetrics) :
    0 ≤ manipulationContribution m := by
  unfold manipulationContribution
  split
  · exact le_min (by positivity) (by norm_num)
  · exact le_refl 0

theorem credibilityContribution_nonneg (m : CompositeMetrics) :
    0 ≤ credibilityContribution m := by
  unfold credibilityContribution
  split
  · next h => nlinarith
  · exact le_refl 0

theorem compositeSum_nonneg (m : CompositeMetrics) (h1 : 0 ≤ m.aiProbability)
    (h2 : 0 ≤ m.aiConfidencePow) (h3 : 0 ≤ m.domainRisk) : 0 ≤ compositeSum m := by
  unfold compositeSum
  have ha := aiContribution_nonneg m h1 h2
  have hu := urgencyContribution_nonneg m
  have hp := persuasionContribution_nonneg m
  have hl := llmContribution_nonneg m
  have hd := domainContribution_nonneg m h3
  have hj := jailbreakContribution_nonneg m
  have hm := manipulationContribution_nonneg m
  have hc := credibilityContribution_nonneg m
  linarith

theorem manipulationTerm_eq (m : CompositeMetrics) :
    min ((m.manipulationTechniques : ℚ) * 2) 8 = manipulationContribution m := by
  unfold manipulationContribution
  split
  · rfl
  · next h =>
      have h0 : m.manipulationTechniques = 0 := by omega
      rw [h0]
      norm_num

/-- Claim C2: for every metric vector in the documented ranges, the
total of the aggregator equals the documented weighted-sum formula (with the
sum clamped to `[0, 100]`; the code only caps at 100, and the sum is
non-negative on in-range inputs, so the two agree). -/
theorem c2_composite_weight_sum (m : CompositeMetrics) (h1 : 0 ≤ m.aiProbability)
    (h2 : 0 ≤ m.aiConfidencePow) (h3 : 0 ≤ m.domainRisk) :
    (computeAdvancedCompositeScore m).total = claimCompositeTotal m := by
  have hs : 0 ≤ compositeSum m := compositeSum_nonneg m h1 h2 h3
  show min (compositeSum m) 100 = claimCompositeTotal m
  have hspec : claimCompositeTotal m = max 0 (min (compositeSum m) 100) := by
    simp only [claimCompositeTotal, compositeSum, aiContribution, urgencyContribution,
      persuasionContribution, llmContribution, domainContribution, jailbreakContribution,
      credibilityContribution, manipulationTerm_eq]
  rw [hspec]
  exact (max_eq_right (le_min hs (by norm_num))).symm

/-- Witness for C2 at a concrete in-range metric vector (confidence 1/4,
whose 1.5-power is exactly 1/8). -/
theorem c2_composite_weight_sum_witness :
    (0 ≤ witnessMetrics.aiProbability ∧ 0 ≤ witnessMetrics.aiConfidencePow
        ∧ 0 ≤ witnessMetrics.domainRisk
        ∧ IsPow15 witnessMetrics.aiConfidence witnessMetrics.aiConfidencePow)
      ∧ (computeAdvancedCompositeScore witnessMetrics).total = claimCompositeTotal witnessMetrics :=
  ⟨⟨by with_unfolding_all decide, by with_unfolding_all decide, by with_unfolding_all decide,
      by constructor <;> with_unfolding_all decide⟩,
    c2_composite_weight_sum witnessMetrics (by with_unfolding_all decide)
      (by with_unfolding_all decide) (by with_unfolding_all decide)⟩

/-- Claim C1 counterexample: a well-formed detector outcome for which zero
of the six independent signals hold and no critical condition holds, yet
the derived risk level is "medium" (composite total 76.2): the derived
risk level is not gated by the signal count. -/
theorem c1_signal_gate_counterexample :
    countIndependentSignals gateBypassInput = 0
      ∧ anyCriticalCondition gateBypassInput = false
      ∧ analysisRiskLevel gateBypassInput = "medium"
      ∧ IsPow15 gateBypassInput.aiResult.confidence gateBypassInput.aiConfidencePow :=
  ⟨by with_unfolding_all decide, by with_unfolding_all decide,
    by with_unfolding_all decide, by constructor <;> with_unfolding_all decide⟩

/-- Claim C1 (amended): with fewer than 2 independent signals, the
analysis raises no high- or medium-risk user-facing notification (both
toast conditions require `independentSignals.count >= 2`); the derived
risk level itself, however, follows the numeric total and the critical
conditions alone. -/
theorem c1_signal_gate_amended (inp : AnalysisInput)
    (h : countIndependentSignals inp < 2) :
    highRiskWarnShown inp = false ∧ mediumInfoShown inp = false := by
  have hs : decide (2 ≤ countIndependentSignals inp) = false := by
    simp only [decide_eq_false_iff_not]
    omega
  unfold highRiskWarnShown mediumInfoShown
  rw [hs]
  simp

/-- Witness for the amended C1 on a quiet page. -/
theorem c1_signal_gate_amended_witness :
    countIndependentSignals quietInput < 2
      ∧ highRiskWarnShown quietInput = false ∧ mediumInfoShown quietInput = false :=
  ⟨by with_unfolding_all decide,
    (c1_signal_gate_amended quietInput (by with_unfolding_all decide)).1,
    (c1_signal_gate_amended quietInput (by with_unfolding_all decide)).2⟩

set_option maxRecDepth 100000 in
/-- Claim C4 counterexample: for the hostname "micros0ft.com" the
typosquat analysis does not report `technique = "character_substitution"`
— `checkCharacterSubstitution` demands a global replacement
(`"microsoft".replace(/o/g, "0") = "micr0s0ft" ≠ "micros0ft"`), so the
distance-1 path classifies the domain as plain `"substitution"`. -/
theorem c4_micros0ft_counterexample :
    (advancedTyposquatAnalysis "micros0ft.com".toList).technique
      ≠ some "character_substitution" := by
  with_unfolding_all decide

set_option maxRecDepth 100000 in
/-- Claim C4 (amended): for "micros0ft.com" the analysis returns
`isTyposquat = true`, `likelyTarget = "microsoft"`, distance 1,
confidence `8/9 ≈ 0.889 ≥ 0.85` — but with `technique = "substitution"`
(the generic Levenshtein-substitution classification), not
`"character_substitution"`. -/
theorem c4_micros0ft_analysis :
    advancedTyposquatAnalysis "micros0ft.com".toList
        = { isTyposquat := true, likelyTarget := some "microsoft", distance := some 1,
            technique := some "substitution", confidence := 8 / 9 }
      ∧ (0.85 : ℚ) ≤ 8 / 9 := by
  constructor <;> with_unfolding_all decide

theorem calculateVariance_nonneg (xs : List ℚ) : 0 ≤ calculateVariance xs := by
  unfold calculateVariance
  split
  · exact le_refl 0
  · apply div_nonneg _ (by positivity)
    apply List.sum_nonneg
    intro y hy
    obtain ⟨x, _, rfl⟩ := List.mem_map.mp hy
    positivity

theorem round3_bounds (q : ℚ) (h0 : 0 ≤ q) (h1 : q ≤ 1) :
    0 ≤ round3 q ∧ round3 q ≤ 1 := by
  unfold round3
  constructor
  · apply div_nonneg _ (by norm_num)
    have hfl : (0 : ℤ) ≤ ⌊q * 1000 + 1 / 2⌋ := Int.floor_nonneg.mpr (by linarith)
    exact_mod_cast hfl
  · rw [div_le_one (by norm_num)]
    have hle := Int.floor_le (q * 1000 + 1 / 2)
    have hfl : ⌊q * 1000 + 1 / 2⌋ ≤ 1000 := by
      by_contra hc
      push_neg at hc
      have : ((1001 : ℤ) : ℚ) ≤ (⌊q * 1000 + 1 / 2⌋ : ℚ) := by exact_mod_cast hc
      linarith
    exact_mod_cast hfl

theorem patternWeightSum_nonneg (r : JailbreakAggregate)
    (hw : ∀ d ∈ r.detections, ∀ p ∈ d.patterns, 0 ≤ p.2) : 0 ≤ patternWeightSum r := by
  unfold patternWeightSum
  apply List.sum_nonneg
  intro y hy
  obtain ⟨d, hd, rfl⟩ := List.mem_map.mp hy
  apply List.sum_nonneg
  intro w hwm
  obtain ⟨p, hp, rfl⟩ := List.mem_map.mp hwm
  exact hw d hd p (List.mem_of_mem_filter hp)

theorem calculateCompositeAIScore_probability_range (c : AIScoreComponents)
    (hl : 0 ≤ c.linguistic) (hst : 0 ≤ c.statistical) (hse : 0 ≤ c.semantic)
    (hstr : 0 ≤ c.structural) :
    0 ≤ (calculateCompositeAIScore c).probability
      ∧ (calculateCompositeAIScore c).probability ≤ 1 := by
  constructor
  · exact le_min (by positivity) (by norm_num)
  · exact min_le_right _ _

theorem calculateCompositeAIScore_confidence_range (c : AIScoreComponents) :
    0 ≤ (calculateCompositeAIScore c).confidence
      ∧ (calculateCompositeAIScore c).confidence ≤ 1 := by
  have hv := calculateVariance_nonneg [c.linguistic, c.statistical, c.semantic, c.structural]
  exact round3_bounds _ (le_max_left _ _) (max_le (by norm_num) (by linarith))

theorem linguisticWeights_nonneg : ∀ w ∈ linguisticWeights, 0 ≤ w := by
  intro w hw
  fin_cases hw <;> norm_num

theorem calculateLinguisticAIScore_range (hits : List ℕ) :
    0 ≤ calculateLinguisticAIScore hits ∧ calculateLinguisticAIScore hits ≤ 1 := by
  unfold calculateLinguisticAIScore
  constructor
  · refine le_min (List.sum_nonneg ?_) (by norm_num)
    intro y hy
    obtain ⟨p, hp, rfl⟩ := List.mem_map.mp hy
    obtain ⟨w, h⟩ := p
    have hw := linguisticWeights_nonneg w (List.of_mem_zip hp).1
    exact le_min (by positivity) hw
  · exact min_le_right _ _

theorem calculateStatisticalAIScore_range (f : StatisticalFeatures) :
    0 ≤ calculateStatisticalAIScore f ∧ calculateStatisticalAIScore f ≤ 1 := by
  unfold calculateStatisticalAIScore
  split_ifs <;> norm_num

theorem calculateSemanticAIScore_range (f : SemanticFeatures) :
    0 ≤ calculateSemanticAIScore f ∧ calculateSemanticAIScore f ≤ 1 := by
  unfold calculateSemanticAIScore
  constructor
  · exact le_min (by split_ifs <;> norm_num) (by norm_num)
  · exact le_trans (min_le_right _ _) (by norm_num)

theorem calculateStructuralAIScore_range (f : StructuralFeatures) :
    0 ≤ calculateStructuralAIScore f ∧ calculateStructuralAIScore f ≤ 1 := by
  unfold calculateStructuralAIScore
  constructor
  · exact le_min (by split_ifs <;> norm_num) (by norm_num)
  · exact le_trans (min_le_right _ _) (by norm_num)

theorem detectPersuasionScore_range (counts : List ℕ) :
    0 ≤ detectPersuasionScore counts ∧ detectPersuasionScore counts ≤ 1 := by
  unfold detectPersuasionScore
  constructor
  · refine le_min (List.sum_nonneg ?_) (by norm_num)
    intro y hy
    obtain ⟨n, _, rfl⟩ := List.mem_map.mp hy
    positivity
  · exact min_le_right _ _

theorem measureUrgencyScore_range (counts : List ℕ) (excl : ℕ) :
    0 ≤ measureUrgencyScore counts excl ∧ measureUrgencyScore counts excl ≤ 1 := by
  unfold measureUrgencyScore
  constructor
  · refine le_min (add_nonneg (List.sum_nonneg ?_) ?_) (by norm_num)
    · intro y hy
      obtain ⟨n, _, rfl⟩ := List.mem_map.mp hy
      positivity
    · split
      · exact le_min (by positivity) (by norm_num)
      · exact le_refl 0
  · exact min_le_right _ _

theorem assessCredibilityScore_range (f : CredibilityFeatures) :
    0 ≤ assessCredibilityScore f ∧ assessCredibilityScore f ≤ 1 := by
  unfold assessCredibilityScore
  exact ⟨le_max_left _ _, max_le (by norm_num) (min_le_right _ _)⟩

theorem analyzeTextFull_ranges (fx : List Char → AITextFeatures) (content : List Char) :
    (0 ≤ (analyzeTextFull fx content).aiProbability
        ∧ (analyzeTextFull fx content).aiProbability ≤ 1)
      ∧ (0 ≤ (analyzeTextFull fx content).confidence
        ∧ (analyzeTextFull fx content).confidence ≤ 1)
      ∧ (0 ≤ (analyzeTextFull fx content).persuasionScore
        ∧ (analyzeTextFull fx content).persuasionScore ≤ 1)
      ∧ (0 ≤ (analyzeTextFull fx content).urgencyScore
        ∧ (analyzeTextFull fx content).urgencyScore ≤ 1)
      ∧ (0 ≤ (analyzeTextFull fx content).credibilityScore
        ∧ (analyzeTextFull fx content).credibilityScore ≤ 1) := by
  by_cases hlen : content.length < 100
  · have he : analyzeTextFull fx content = createEmptyResult := by
      unfold analyzeTextFull analyzeTextWith
      simp [hlen]
    rw [he]
    refine ⟨⟨?_, ?_⟩, ⟨?_, ?_⟩, ⟨?_, ?_⟩, ⟨?_, ?_⟩, ⟨?_, ?_⟩⟩ <;>
      norm_num [createEmptyResult]
  · have he : analyzeTextFull fx content = analyzeTextAssemble fx content := by
      unfold analyzeTextFull analyzeTextWith
      simp [hlen]
    rw [he]
    have hlg := calculateLinguisticAIScore_range (fx content).linguisticHits
    have hst := calculateStatisticalAIScore_range (fx content).statistical
    have hse := calculateSemanticAIScore_range (fx content).semantic
    have hstr := calculateStructuralAIScore_range (fx content).structural
    have hprob := calculateCompositeAIScore_probability_range
      ⟨calculateLinguisticAIScore (fx content).linguisticHits,
        calculateStatisticalAIScore (fx content).statistical,
        calculateSemanticAIScore (fx content).semantic,
        calculateStructuralAIScore (fx content).structural⟩
      hlg.1 hst.1 hse.1 hstr.1
    have hconf := calculateCompositeAIScore_confidence_range
      ⟨calculateLinguisticAIScore (fx content).linguisticHits,
        calculateStatisticalAIScore (fx content).statistical,
        calculateSemanticAIScore (fx content).semantic,
        calculateStructuralAIScore (fx content).structural⟩
    have hpers := detectPersuasionScore_range (fx content).persuasionCounts
    have hurg := measureUrgencyScore_range (fx content).urgencyCounts
      (fx content).exclamationCount
    have hcred := assessCredibilityScore_range (fx content).credibility
    unfold analyzeTextAssemble
    exact ⟨round3_bounds _ hprob.1 hprob.2, round3_bounds _ hconf.1 hconf.2,
      round3_bounds _ hpers.1 hpers.2, round3_bounds _ hurg.1 hurg.2,
      round3_bounds _ hcred.1 hcred.2⟩

theorem llmCategories_weight_nonneg : ∀ c ∈ llmCategories, 0 ≤ c.2.2 := by
  intro c hc
  fin_cases hc <;> norm_num

theorem llmFold_fst_nonneg :
    ∀ (l : List ((String × String × ℚ) × ℕ)) (acc : ℚ × List (String × ℚ)),
      (∀ x ∈ l, 0 ≤ x.1.2.2) → 0 ≤ acc.1 →
      0 ≤ (l.foldl
        (fun acc p =>
          if 0 < p.2 then
            let cScore := min ((p.2 : ℚ) * 0.1 * p.1.2.2) p.1.2.2
            (acc.1 + cScore, addModelSignature acc.2 p.1.2.1 cScore)
          else acc) acc).1 := by
  intro l
  induction l with
  | nil => exact fun acc _ ha => ha
  | cons x xs ih =>
      intro acc hw ha
      rw [List.foldl_cons]
      refine ih _ (fun y hy => hw y (List.mem_cons_of_mem x hy)) ?_
      have hx := hw x (List.mem_cons_self x xs)
      dsimp only
      split
      · have hmin : (0 : ℚ) ≤ min ((x.2 : ℚ) * 0.1 * x.1.2.2) x.1.2.2 :=
          le_min (by positivity) hx
        dsimp only
        linarith
      · exact ha

theorem llmAccumulate_fst_nonneg (hits : List ℕ) : 0 ≤ (llmAccumulate hits).1 := by
  unfold llmAccumulate
  refine llmFold_fst_nonneg _ _ ?_ (le_refl 0)
  intro x hx
  obtain ⟨c, n⟩ := x
  exact llmCategories_weight_nonneg c (List.of_mem_zip hx).1

theorem calculateContextMultiplier_one_le (f c u : Bool) :
    1 ≤ calculateContextMultiplier f c u := by
  unfold calculateContextMultiplier
  split_ifs <;> simp [le_max_iff]

theorem analyzeHeuristicsScore_range (a b c d e : Bool) :
    0 ≤ analyzeHeuristicsScore a b c d e ∧ analyzeHeuristicsScore a b c d e ≤ 0.4 := by
  unfold analyzeHeuristicsScore
  constructor
  · exact le_min (by split_ifs <;> norm_num) (by norm_num)
  · exact min_le_right _ _

theorem identifyLikelyModel_confidence_range (sigs : List (String × ℚ)) (lm : LikelyModel)
    (h : identifyLikelyModel sigs = some lm) : 0 ≤ lm.confidence ∧ lm.confidence ≤ 1 := by
  cases sigs with
  | nil => simp [identifyLikelyModel] at h
  | cons s rest =>
      unfold identifyLikelyModel at h
      dsimp only at h
      split at h
      · next htop =>
          obtain rfl : lm = LikelyModel.mk _ _ := (Option.some.inj h).symm
          exact round3_bounds _ (le_min (by linarith) (by norm_num)) (min_le_right _ _)
      · exact absurd h (by simp)

theorem detectAIPhishingFull_ranges (fx : List Char → LLMFeatures) (content : List Char) :
    (0 ≤ (detectAIPhishingFull fx content).score
        ∧ (detectAIPhishingFull fx content).score ≤ 1)
      ∧ ∀ lm : LikelyModel, (detectAIPhishingFull fx content).likelyModel = some lm →
          0 ≤ lm.confidence ∧ lm.confidence ≤ 1 := by
  unfold detectAIPhishingFull detectAIPhishingWith
  split_ifs
  · exact ⟨⟨by norm_num [llmCreateEmptyResult], by norm_num [llmCreateEmptyResult]⟩,
      fun lm hlm => absurd hlm (by simp [llmCreateEmptyResult])⟩
  · have hacc := llmAccumulate_fst_nonneg (fx content).categoryHits
    have hmul := calculateContextMultiplier_one_le (fx content).financialContext
      (fx content).credentialContext (fx content).urgentContext
    have hheur := analyzeHeuristicsScore_range (fx content).excessiveFormality
      (fx content).suspiciousGrammar (fx content).unnaturalRhythm
      (fx content).overStructured (fx content).repetitivePhrases
    unfold detectAIPhishingAssemble
    constructor
    · refine round3_bounds _ (le_min ?_ (by norm_num)) (min_le_right _ _)
      have : (0 : ℚ) ≤ (llmAccumulate (fx content).categoryHits).1
          * calculateContextMultiplier (fx content).financialContext
            (fx content).credentialContext (fx content).urgentContext :=
        mul_nonneg hacc (by linarith)
      linarith [hheur.1]
    · exact fun lm hlm => identifyLikelyModel_confidence_range _ lm hlm

theorem editDistance_le_max : ∀ a b : List Char, editDistance a b ≤ max a.length b.length := by
  intro a
  induction a with
  | nil =>
      intro b
      rw [editDistance_nil_left]
      exact le_max_right _ _
  | cons x xs ih =>
      intro b
      cases b with
      | nil =>
          rw [editDistance_nil_right]
          exact le_max_left _ _
      | cons y ys =>
          rw [editDistance_cons_cons]
          have h3 := ih ys
          have hcost : (if x = y then 0 else 1) ≤ 1 := by split <;> omega
          have hmid : editDistance xs ys + (if x = y then 0 else 1)
              ≤ max xs.length ys.length + 1 := by omega
          have hsel : min (editDistance xs (y :: ys) + 1)
              (min (editDistance (x :: xs) ys + 1)
                (editDistance xs ys + (if x = y then 0 else 1)))
              ≤ editDistance xs ys + (if x = y then 0 else 1) :=
            le_trans (min_le_right _ _) (min_le_right _ _)
          have hlen : max xs.length ys.length + 1
              = max (x :: xs).length (y :: ys).length := by
            simp only [List.length_cons]
            omega
          omega

theorem levenshteinDistance_le_max (a b : List Char) :
    levenshteinDistance a b ≤ max a.length b.length := by
  rw [levenshteinDistance_eq_editDistance]
  exact editDistance_le_max a b

theorem typosquatStep_confidence (base : List Char) (r : TyposquatAnalysis) (target : String)
    (h0 : 0 ≤ r.confidence) (h1 : r.confidence ≤ 1) :
    0 ≤ (typosquatStep base r target).confidence
      ∧ (typosquatStep base r target).confidence ≤ 1 := by
  have hd := levenshteinDistance_le_max base target.toList
  have hdq : 0 ≤ 1 - (levenshteinDistance base target.toList : ℚ)
        / ((max base.length target.toList.length : ℕ) : ℚ)
      ∧ 1 - (levenshteinDistance base target.toList : ℚ)
        / ((max base.length target.toList.length : ℕ) : ℚ) ≤ 1 := by
    rcases Nat.eq_zero_or_pos (max base.length target.toList.length) with hM | hM
    · have hd0 : levenshteinDistance base target.toList = 0 := by omega
      rw [hd0, hM]
      norm_num
    · have hpos : (0 : ℚ) < ((max base.length target.toList.length : ℕ) : ℚ) := by
        exact_mod_cast hM
      have hle : ((levenshteinDistance base target.toList : ℕ) : ℚ)
          ≤ ((max base.length target.toList.length : ℕ) : ℚ) := by exact_mod_cast hd
      have hq1 : ((levenshteinDistance base target.toList : ℕ) : ℚ)
          / ((max base.length target.toList.length : ℕ) : ℚ) ≤ 1 :=
        (div_le_one hpos).mpr hle
      have hq0 : (0 : ℚ) ≤ ((levenshteinDistance base target.toList : ℕ) : ℚ)
          / ((max base.length target.toList.length : ℕ) : ℚ) :=
        div_nonneg (by positivity) (le_of_lt hpos)
      constructor <;> linarith
  simp only [typosquatStep]
  split_ifs <;>
    first
      | exact hdq
      | exact ⟨h0, h1⟩
      | (constructor <;> norm_num)

theorem foldl_typosquatStep_confidence (base : List Char) :
    ∀ (l : List String) (r : TyposquatAnalysis), 0 ≤ r.confidence → r.confidence ≤ 1 →
      0 ≤ (l.foldl (typosquatStep base) r).confidence
        ∧ (l.foldl (typosquatStep base) r).confidence ≤ 1 := by
  intro l
  induction l with
  | nil => exact fun r h0 h1 => ⟨h0, h1⟩
  | cons t ts ih =>
      intro r h0 h1
      have hstep := typosquatStep_confidence base r t h0 h1
      exact ih (typosquatStep base r t) hstep.1 hstep.2

theorem brandImpersonationFold_mem :
    ∀ (l : List String) (base : List Char) (acc : List ℚ),
      (∀ x ∈ acc, 0 ≤ x ∧ x ≤ 1) →
      ∀ x ∈ l.foldl
        (fun acc brand =>
          let t := brand.toList
          let acc1 :=
            if listContainsSub base t && !(base == t) then acc ++ [(0.8 : ℚ)] else acc
          if listContainsSub base (t ++ ['-']) || listContainsSub base ('-' :: t) then
            acc1 ++ [(0.9 : ℚ)]
          else acc1) acc,
        0 ≤ x ∧ x ≤ 1 := by
  intro l
  induction l with
  | nil => exact fun base acc hacc => hacc
  | cons b bs ih =>
      intro base acc hacc
      rw [List.foldl_cons]
      refine ih base _ ?_
      intro x hx
      dsimp only at hx
      split_ifs at hx
      · simp only [List.mem_append, List.mem_singleton] at hx
        rcases hx with (hx | rfl) | rfl
        · exact hacc x hx
        · norm_num
        · norm_num
      · simp only [List.mem_append, List.mem_singleton] at hx
        rcases hx with hx | rfl
        · exact hacc x hx
        · norm_num
      · simp only [List.mem_append, List.mem_singleton] at hx
        rcases hx with hx | rfl
        · exact hacc x hx
        · norm_num
      · exact hacc x hx

theorem foldl_max_bound :
    ∀ (l : List ℚ) (a : ℚ), 0 ≤ a → a ≤ 1 → (∀ x ∈ l, 0 ≤ x ∧ x ≤ 1) →
      0 ≤ l.foldl max a ∧ l.foldl max a ≤ 1 := by
  intro l
  induction l with
  | nil => exact fun a h0 h1 _ => ⟨h0, h1⟩
  | cons x xs ih =>
      intro a h0 h1 hl
      rw [List.foldl_cons]
      have hx := hl x (List.mem_cons_self x xs)
      refine ih (max a x) (le_trans h0 (le_max_left _ _)) (max_le h1 hx.2) ?_
      intro y hy
      exact hl y (List.mem_cons_of_mem x hy)

theorem brandImpersonationHits_mem (domain : List Char) :
    ∀ x ∈ brandImpersonationHits domain, 0 ≤ x ∧ x ≤ 1 := by
  unfold brandImpersonationHits
  exact brandImpersonationFold_mem commonDomains _ [] (by simp)

theorem detectBrandImpersonationConfidence_range (domain : List Char) :
    0 ≤ detectBrandImpersonationConfidence domain
      ∧ detectBrandImpersonationConfidence domain ≤ 1 := by
  unfold detectBrandImpersonationConfidence
  dsimp only
  split_ifs
  · norm_num
  · exact foldl_max_bound _ 0 (le_refl 0) (by norm_num) (brandImpersonationHits_mem domain)

theorem jailbreakCategoryWeights_nonneg : ∀ p ∈ jailbreakCategoryWeights, 0 ≤ p.2 := by
  intro p hp
  fin_cases hp <;> norm_num

theorem suspicionScoreOf_nonneg (f : FragmentFeatures) : 0 ≤ suspicionScoreOf f := by
  unfold suspicionScoreOf
  split_ifs <;> norm_num

theorem fragmentHits_nonneg (f : FragmentFeatures) : 0 ≤ fragmentHits f := by
  unfold fragmentHits
  refine add_nonneg (List.sum_nonneg ?_) ?_
  · intro y hy
    obtain ⟨n, _, rfl⟩ := List.mem_map.mp hy
    positivity
  · split
    · exact suspicionScoreOf_nonneg f
    · exact le_refl 0

theorem fragmentDetection_weights_nonneg (f : FragmentFeatures) :
    ∀ p ∈ (fragmentDetection f).patterns, 0 ≤ p.2 := by
  intro p hp
  unfold fragmentDetection at hp
  rcases List.mem_append.mp hp with hp | hp
  · obtain ⟨q, hq, rfl⟩ := List.mem_map.mp hp
    obtain ⟨⟨nm, w⟩, c⟩ := q
    exact jailbreakCategoryWeights_nonneg (nm, w)
      (List.of_mem_zip (List.mem_of_mem_filter hq)).1
  · split at hp
    · rcases List.mem_singleton.mp hp with rfl
      exact suspicionScoreOf_nonneg f
    · exact absurd hp (List.not_mem_nil p)

theorem mkJailbreakAggregate_totalHits_nonneg (frags : List FragmentFeatures) (crit : ℕ) :
    0 ≤ (mkJailbreakAggregate frags crit).totalHits := by
  refine List.sum_nonneg ?_
  intro y hy
  obtain ⟨f, _, rfl⟩ := List.mem_map.mp hy
  exact fragmentHits_nonneg f

theorem mkJailbreakAggregate_weights_nonneg (frags : List FragmentFeatures) (crit : ℕ) :
    ∀ d ∈ (mkJailbreakAggregate frags crit).detections, ∀ p ∈ d.patterns, 0 ≤ p.2 := by
  intro d hd
  obtain ⟨f, _, rfl⟩ := List.mem_map.mp hd
  exact fragmentDetection_weights_nonneg f

/-- Claim C5: for every text input and every hostname input, every
probability or confidence value returned by any detector lies in `[0,1]`,
and every 0-100 score lies in `[0,100]`.  Text detectors are quantified
over the text and over an arbitrary regex feature extractor; hostname
results over every hostname.  Covered values: the text analyzer fields
`aiProbability`, `confidence`, `persuasionScore`, `urgencyScore` and
`credibilityScore`; the fingerprinter `score` and `likelyModel.confidence`;
the typosquat and brand-impersonation confidences; the background domain
`riskScore`; the jailbreak `riskScore` over every list of scanned
fragments; and the composite total over pipeline-assembled metrics
(`pow` carries the value of `Math.pow(aiConfidence, 1.5)`). -/
theorem c5_score_range_invariants :
    (∀ (fx : List Char → AITextFeatures) (content : List Char),
        (0 ≤ (analyzeTextFull fx content).aiProbability
          ∧ (analyzeTextFull fx content).aiProbability ≤ 1)
        ∧ (0 ≤ (analyzeTextFull fx content).confidence
          ∧ (analyzeTextFull fx content).confidence ≤ 1)
        ∧ (0 ≤ (analyzeTextFull fx content).persuasionScore
          ∧ (analyzeTextFull fx content).persuasionScore ≤ 1)
        ∧ (0 ≤ (analyzeTextFull fx content).urgencyScore
          ∧ (analyzeTextFull fx content).urgencyScore ≤ 1)
        ∧ (0 ≤ (analyzeTextFull fx content).credibilityScore
          ∧ (analyzeTextFull fx content).credibilityScore ≤ 1))
      ∧ (∀ (fx : List Char → LLMFeatures) (content : List Char),
          (0 ≤ (detectAIPhishingFull fx content).score
            ∧ (detectAIPhishingFull fx content).score ≤ 1)
          ∧ ∀ lm : LikelyModel, (detectAIPhishingFull fx content).likelyModel = some lm →
              0 ≤ lm.confidence ∧ lm.confidence ≤ 1)
      ∧ (∀ domain : List Char,
          (0 ≤ (advancedTyposquatAnalysis domain).confidence
            ∧ (advancedTyposquatAnalysis domain).confidence ≤ 1)
          ∧ (0 ≤ detectBrandImpersonationConfidence domain
            ∧ detectBrandImpersonationConfidence domain ≤ 1))
      ∧ (∀ (l : LocalSignals) (r : RemoteSignals),
          0 ≤ scoreDomainRiskCore l r ∧ scoreDomainRiskCore l r ≤ 100)
      ∧ (∀ (frags : List FragmentFeatures) (crit : ℕ),
          0 ≤ calculateRiskScore (mkJailbreakAggregate frags crit)
            ∧ calculateRiskScore (mkJailbreakAggregate frags crit) ≤ 100)
      ∧ (∀ (fxA : List Char → AITextFeatures) (fxL : List Char → LLMFeatures)
          (content : List Char) (frags : List FragmentFeatures) (crit : ℕ)
          (l : LocalSignals) (r : RemoteSignals) (typo : Option TyposquattingSummary)
          (pow : ℚ),
          IsPow15 (analyzeTextFull fxA content).confidence pow →
          0 ≤ (computeAdvancedCompositeScore (mkCompositeMetrics
              { aiResult := analyzeTextFull fxA content
                llmResult := detectAIPhishingFull fxL content
                domainResult := some
                  { riskScore := scoreDomainRiskCore l r, typosquatting := typo }
                jailbreakHits := (mkJailbreakAggregate frags crit).totalHits
                aiConfidencePow := pow })).total
            ∧ (computeAdvancedCompositeScore (mkCompositeMetrics
              { aiResult := analyzeTextFull fxA content
                llmResult := detectAIPhishingFull fxL content
                domainResult := some
                  { riskScore := scoreDomainRiskCore l r, typosquatting := typo }
                jailbreakHits := (mkJailbreakAggregate frags crit).totalHits
                aiConfidencePow := pow })).total ≤ 100) := by
  refine ⟨?_, ?_, ?_, ?_, ?_, ?_⟩
  · exact fun fx content => analyzeTextFull_ranges fx content
  · exact fun fx content => detectAIPhishingFull_ranges fx content
  · intro domain
    constructor
    · unfold advancedTyposquatAnalysis
      exact foldl_typosquatStep_confidence _ commonDomains _ (le_refl 0) (by norm_num)
    · exact detectBrandImpersonationConfidence_range domain
  · intro l r
    constructor
    · refine le_min ?_ (by norm_num)
      split_ifs <;> norm_num
    · exact min_le_right _ _
  · intro frags crit
    rw [calculateRiskScore_closedForm]
    constructor
    · refine le_min ?_ (by norm_num)
      have hh := mkJailbreakAggregate_totalHits_nonneg frags crit
      have hws := patternWeightSum_nonneg _ (mkJailbreakAggregate_weights_nonneg frags crit)
      have hbase : (0 : ℚ) ≤ min ((mkJailbreakAggregate frags crit).totalHits * 15) 50 :=
        le_min (by positivity) (by norm_num)
      unfold jsRound
      apply Int.floor_nonneg.mpr
      have hcrit : (0 : ℚ) ≤ ((mkJailbreakAggregate frags crit).criticalHits : ℚ) * 30 := by
        positivity
      linarith
    · exact min_le_right _ _
  · intro fxA fxL content frags crit l r typo pow hpow
    have hai := (analyzeTextFull_ranges fxA content).1.1
    have hdom : (0 : ℚ) ≤ scoreDomainRiskCore l r := by
      refine le_min ?_ (by norm_num)
      split_ifs <;> norm_num
    have hjail := mkJailbreakAggregate_totalHits_nonneg frags crit
    constructor
    · refine le_min ?_ (by norm_num)
      exact compositeSum_nonneg _ hai hpow.1 hdom
    · exact min_le_right _ _

set_option maxRecDepth 100000 in
/-- Witness for C5: the model-confidence clause at a concrete extractor
that reports seven GPT-signature hits on a 113-character text (top
signature score 0.175, model confidence 0.35), and the composite clause
at zero text features (AI confidence exactly 1, whose 1.5-power is 1),
one scanned fragment with two pattern matches and a prompt-like
structure, and a present domain bundle with zero-hit feeds. -/
theorem c5_score_range_invariants_witness :
    (0 ≤ (LikelyModel.mk "GPT" 0.35).confidence
        ∧ (LikelyModel.mk "GPT" 0.35).confidence ≤ 1)
      ∧ (0 ≤ (computeAdvancedCompositeScore (mkCompositeMetrics
            { aiResult := analyzeTextFull witnessTextExtractor longContent
              llmResult := detectAIPhishingFull witnessLLMExtractor longContent
              domainResult := some
                { riskScore := scoreDomainRiskCore witnessLocalSignals zeroHitRemoteSignals,
                  typosquatting := none }
              jailbreakHits := (mkJailbreakAggregate [witnessFragment] 1).totalHits
              aiConfidencePow := 1 })).total
        ∧ (computeAdvancedCompositeScore (mkCompositeMetrics
            { aiResult := analyzeTextFull witnessTextExtractor longContent
              llmResult := detectAIPhishingFull witnessLLMExtractor longContent
              domainResult := some
                { riskScore := scoreDomainRiskCore witnessLocalSignals zeroHitRemoteSignals,
                  typosquatting := none }
              jailbreakHits := (mkJailbreakAggregate [witnessFragment] 1).totalHits
              aiConfidencePow := 1 })).total ≤ 100) :=
  ⟨(c5_score_range_invariants.2.1 witnessLLMExtractor longContent).2
      (LikelyModel.mk "GPT" 0.35) (by with_unfolding_all decide),
    c5_score_range_invariants.2.2.2.2.2 witnessTextExtractor witnessLLMExtractor longContent
      [witnessFragment] 1 witnessLocalSignals zeroHitRemoteSignals none 1
      ⟨by norm_num, by with_unfolding_all decide⟩⟩

/-- Witness for the amended C7 at concrete local signals and a bundle in
which both feeds answered with zero hits. -/
theorem c7_no_hit_bundle_same_score_witness :
    vtFlagged zeroHitRemoteSignals = false
      ∧ gsbFlagged zeroHitRemoteSignals = false
      ∧ scoreDomainRisk witnessLocalSignals (some zeroHitRemoteSignals) =
          Except.ok (scoreDomainRiskCore witnessLocalSignals
            { vtResult := none, gsbResult := none }) :=
  ⟨by decide, by decide,
    c7_no_hit_bundle_same_score witnessLocalSignals zeroHitRemoteSignals
      (by decide) (by decide)⟩

end AntiLLM
